import Mathlib

/-!
# Helen: lobby slot table, ban list, readiness tracker, lifecycle and permissions

A shallow embedding of `models/lobby.go` and `helpers/authority/authority.go`
(TF2Stadium/Helen).  The relational store behind `db.DB` (gorm) is an explicit value of
type `DB`; every method of `Lobby` becomes a function that takes the lobby and the store
and returns the updated lobby, the updated store and the returned error.  The
process-wide maps of the lifecycle are a value of type `Registry`, and the package
variable `permissions` is a value of type `Permissions`.

Conventions
* Go `uint` is `Nat`, Go `int` is `Int` (no arithmetic here can overflow).
* A Go `error` is `Option String` (`none` is `nil`); a `*helpers.TPError` is
  `Option TPError`.
* The store itself never fails: the only error a query reports is gorm's
  record-not-found.
-/

namespace Helen

/-! ## Types of `models/lobby.go` -/

/-- Go `type LobbyType int`. -/
abbrev LobbyType := Int

/-- Go `type LobbyState int`. -/
abbrev LobbyState := Int

def LobbyTypeSixes : LobbyType := 0
def LobbyTypeHighlander : LobbyType := 1

/-- The map `TypePlayerCount`; a key that is not in a Go map reads as the zero value. -/
def TypePlayerCount (t : LobbyType) : Int :=
  if t = LobbyTypeSixes then 6
  else if t = LobbyTypeHighlander then 9
  else 0

def LobbyStateInitializing : LobbyState := 0
def LobbyStateWaiting : LobbyState := 1
def LobbyStateInProgress : LobbyState := 2
def LobbyStateEnded : LobbyState := 3

/-- Modelled from the spec: `helpers.TPError` (package `helpers` is not among the
sources): a failure is a value returned to the caller, built by
`helpers.NewTPError(message, code)`. -/
structure TPError where
  Str : String
  Code : Int
deriving DecidableEq, Repr

/-- Modelled from the spec: `helpers.NewTPError`, the constructor of `TPError`. -/
def NewTPError (str : String) (code : Int) : TPError :=
  { Str := str, Code := code }

/-- The struct `LobbySlot`, one row of table `lobby_slots`. -/
structure LobbySlot where
  ID : Nat
  LobbyId : Nat
  PlayerId : Nat
  Slot : Int
  Ready : Bool
deriving DecidableEq, Repr

/-- The zero value `&LobbySlot{}`. -/
def LobbySlot.zero : LobbySlot :=
  { ID := 0, LobbyId := 0, PlayerId := 0, Slot := 0, Ready := false }

/-- The struct `Player` of `models/player.go`: the primary key of `gorm.Model` and the
steam id; the other columns are read by no lobby method. -/
structure Player where
  ID : Nat
  SteamId : String
deriving DecidableEq, Repr

/-- Modelled from the spec: the server control-plane handle `*Server` (`models/server.go`
is not among the sources).  `SetAllowedPlayers(serverHandle, steamIds)` "pushes the
current occupant list"; the handle records the last list pushed.  It also records the
lobby it was built for and how often `Setup`, `End` and `SetupObject` were called on
it; the fields `League`, `Map`, `Info` and `ServerPassword` that `AfterSave` fills in
are read by no method of `Lobby` and are left out. -/
structure Server where
  AllowedPlayers : List String
  LobbyId : Nat := 0
  Type_ : LobbyType := 0
  SetupCalls : Nat := 0
  EndCalls : Nat := 0
  SetupObjectCalls : Nat := 0
deriving DecidableEq, Repr

/-- Modelled from the spec: `Server.SetAllowedPlayers`. -/
def Server.SetAllowedPlayers (s : Server) (steamids : List String) : Server :=
  { s with AllowedPlayers := steamids }

/-- Modelled from the spec: `NewServer()`, a fresh handle. -/
def NewServer : Server := { AllowedPlayers := [] }

/-- Modelled from the spec: the effect of `Server.Setup()` on the handle ("provisions and
configures an external game-server instance"); whether it fails is an outcome of the
collaborator, see `Outcome`. -/
def Server.Setup (s : Server) : Server :=
  { s with SetupCalls := s.SetupCalls + 1 }

/-- Modelled from the spec: `Server.End()` ("releases it, safe to call multiple times"). -/
def Server.End (s : Server) : Server :=
  { s with EndCalls := s.EndCalls + 1 }

/-- Modelled from the spec: `Server.SetupObject()`, of which the spec says nothing; the
call is recorded on the handle. -/
def Server.SetupObject (s : Server) : Server :=
  { s with SetupObjectCalls := s.SetupObjectCalls + 1 }

/-- The struct `Lobby`: primary key, state, type and the attached server (`nil` is
`none`).  The in-memory association slices `Slots`, `Spectators`, `BannedPlayers` are
read by no method below; every method queries the store. -/
structure Lobby where
  ID : Nat
  State : LobbyState
  Type_ : LobbyType
  Server : Option Server
deriving DecidableEq, Repr

/-! ## The store `db.DB` -/

/-- The tables the lobby methods touch.  `lobby_slots` is kept in primary-key order
(insertion order); `lobby_slots_seq` is the last value of its auto-increment key.  The
two join tables hold pairs `(lobby_id, player_id)`. -/
structure DB where
  lobby_slots : List LobbySlot
  lobby_slots_seq : Nat
  spectators_players_lobbies : List (Nat × Nat)
  banned_players_lobbies : List (Nat × Nat)
  players : List Player
deriving DecidableEq, Repr

/-- The value `*gorm.DB` that every chained gorm call returns; its field `Error` holds
the error of the query. -/
structure GormDB where
  Error : Option String
deriving DecidableEq, Repr

def RecordNotFound : String := "record not found"

/-- The call `db.DB.Where(cond).First(out).Error`: the matching row with the smallest
primary key, or the untouched zero value and record-not-found. -/
def DB.First (db : DB) (cond : LobbySlot → Bool) : LobbySlot × Option String :=
  match db.lobby_slots.find? cond with
  | some r => (r, none)
  | none => (LobbySlot.zero, some RecordNotFound)

/-- The call `db.DB.Where(cond).Find(out)` with a single struct as `out`.  The result is
the `*gorm.DB` handle itself, a pointer that is never `nil` (hence `some`); the error
of the query is its field `Error`. -/
def DB.Find (db : DB) (cond : LobbySlot → Bool) : LobbySlot × Option GormDB :=
  match db.lobby_slots.find? cond with
  | some r => (r, some { Error := none })
  | none => (LobbySlot.zero, some { Error := some RecordNotFound })

/-- The call `db.DB.Where(cond).Find(&slots)` with a slice: all matching rows. -/
def DB.FindAll (db : DB) (cond : LobbySlot → Bool) : List LobbySlot :=
  db.lobby_slots.filter cond

/-- The call `db.DB.Table("lobby_slots").Where(cond).Count(&count).Error`. -/
def DB.CountSlots (db : DB) (cond : LobbySlot → Bool) : Int × Option String :=
  (((db.lobby_slots.filter cond).length : Nat), none)

/-- The call `db.DB.Table("banned_players_lobbies").Where(...).Count(&num).Error`. -/
def DB.CountBanned (db : DB) (lobbyId playerId : Nat) : Int × Option String :=
  (((db.banned_players_lobbies.filter
      (fun e => e.1 == lobbyId && e.2 == playerId)).length : Nat), none)

/-- The call `db.DB.Where(cond).Delete(&LobbySlot{}).Error`: every matching row goes. -/
def DB.Delete (db : DB) (cond : LobbySlot → Bool) : DB × Option String :=
  ({ db with lobby_slots := db.lobby_slots.filter (fun r => !cond r) }, none)

/-- The call `db.DB.Create(row)`: the row is inserted under the next primary key. -/
def DB.Create (db : DB) (row : LobbySlot) : DB :=
  { db with
    lobby_slots := db.lobby_slots ++ [{ row with ID := db.lobby_slots_seq + 1 }]
    lobby_slots_seq := db.lobby_slots_seq + 1 }

/-- The call `db.DB.Save(row)`: a row with a zero primary key is created, otherwise all
columns of the row with that primary key are updated. -/
def DB.Save (db : DB) (row : LobbySlot) : DB :=
  if row.ID = 0 then db.Create row
  else { db with
         lobby_slots := db.lobby_slots.map (fun r => if r.ID = row.ID then row else r) }

/-- Join-table insert of gorm's `Association(...).Append`: the pair is added unless it is
already there. -/
def joinAppend (t : List (Nat × Nat)) (lobbyId playerId : Nat) : List (Nat × Nat) :=
  if (lobbyId, playerId) ∈ t then t else t ++ [(lobbyId, playerId)]

/-- Join-table delete of gorm's `Association(...).Delete`. -/
def joinDelete (t : List (Nat × Nat)) (lobbyId playerId : Nat) : List (Nat × Nat) :=
  t.filter (fun e => !(e.1 == lobbyId && e.2 == playerId))

/-- The `steam_id` column that the left join of `lobby_slots` with `players` yields for a
slot row (empty when no player row has that id). -/
def DB.steamIdOf (db : DB) (playerId : Nat) : String :=
  match db.players.find? (fun p => p.ID == playerId) with
  | some p => p.SteamId
  | none => ""

/-! ## Methods of `Lobby` -/

/-- The method `Lobby.GetPlayerSlot`. -/
def GetPlayerSlot (lobby : Lobby) (db : DB) (player : Player) : Int × Option String :=
  let q := db.First (fun r => r.PlayerId == player.ID && r.LobbyId == lobby.ID)
  (q.1.Slot, q.2)

/-- The method `Lobby.GetPlayerIdBySlot`. -/
def GetPlayerIdBySlot (lobby : Lobby) (db : DB) (slot : Int) : Nat × Option String :=
  let q := db.First (fun r => r.LobbyId == lobby.ID && r.Slot == slot)
  (q.1.PlayerId, q.2)

/-- The method `Lobby.updateServerAllowedPlayers`: nothing without a server, otherwise the
steam ids of the lobby's occupants are pushed to the server. -/
def updateServerAllowedPlayers (lobby : Lobby) (db : DB) : Lobby :=
  match lobby.Server with
  | none => lobby
  | some s =>
    let steamids :=
      (db.lobby_slots.filter (fun r => r.LobbyId == lobby.ID)).map
        (fun r => db.steamIdOf r.PlayerId)
    { lobby with Server := some (s.SetAllowedPlayers steamids) }

/-- The method `Lobby.RemovePlayer`. -/
def RemovePlayer (lobby : Lobby) (db : DB) (player : Player) :
    Lobby × DB × Option TPError :=
  let d := db.Delete (fun r => r.PlayerId == player.ID && r.LobbyId == lobby.ID)
  let lobby1 := updateServerAllowedPlayers lobby d.1
  match d.2 with
  | some e => (lobby1, d.1, some (NewTPError e (-1)))
  | none => (lobby1, d.1, none)

/-- The method `Lobby.RemoveSpectator`. -/
def RemoveSpectator (lobby : Lobby) (db : DB) (player : Player) :
    Lobby × DB × Option TPError :=
  (lobby,
   { db with spectators_players_lobbies :=
       joinDelete db.spectators_players_lobbies lobby.ID player.ID },
   none)

/-- The method `Lobby.AddPlayer`. -/
def AddPlayer (lobby : Lobby) (db : DB) (player : Player) (slot : Int) :
    Lobby × DB × Option TPError :=
  let lobbyBanError := NewTPError "The player has been banned from this lobby." 4
  let badSlotError := NewTPError "This slot does not exist." 3
  let filledError := NewTPError "This slot has been filled." 2
  let alreadyInLobbyError := NewTPError "Player is already in a lobby" 1
  if player.ID = 0 then
    (lobby, db, some (NewTPError "Player not in the database" (-1)))
  else
    let c := db.CountBanned lobby.ID player.ID
    if c.1 > 0 ∨ c.2 ≠ none then
      (lobby, db, some lobbyBanError)
    else if slot ≥ 2 * TypePlayerCount lobby.Type_ ∨ slot < 0 then
      (lobby, db, some badSlotError)
    else
      let slotFilled : Bool := (GetPlayerIdBySlot lobby db slot).2 == none
      -- here err is the *gorm.DB handle returned by Find, not its Error field
      let f := db.Find (fun r => r.PlayerId == player.ID)
      let playerSlot := f.1
      let err := f.2
      if err = none ∧ playerSlot.LobbyId ≠ lobby.ID then
        (lobby, db, some alreadyInLobbyError)
      else if slotFilled then
        (lobby, db, some filledError)
      else
        let r1 := RemovePlayer lobby db player
        let r2 := RemoveSpectator r1.1 r1.2.1 player
        let newSlotObj : LobbySlot :=
          { ID := 0, PlayerId := player.ID, LobbyId := lobby.ID, Slot := slot,
            Ready := false }
        let db3 := r2.2.1.Create newSlotObj
        (updateServerAllowedPlayers r2.1 db3, db3, none)

/-- The method `Lobby.BanPlayer`. -/
def BanPlayer (lobby : Lobby) (db : DB) (player : Player) : Lobby × DB :=
  (lobby,
   { db with banned_players_lobbies :=
       joinAppend db.banned_players_lobbies lobby.ID player.ID })

/-- The method `Lobby.ReadyPlayer`. -/
def ReadyPlayer (lobby : Lobby) (db : DB) (player : Player) :
    Lobby × DB × Option TPError :=
  let q := db.First (fun r => r.LobbyId == lobby.ID && r.PlayerId == player.ID)
  match q.2 with
  | some _ => (lobby, db, some (NewTPError "Player is not in the lobby." 5))
  | none => (lobby, db.Save { q.1 with Ready := true }, none)

/-- The method `Lobby.UnreadyPlayer`. -/
def UnreadyPlayer (lobby : Lobby) (db : DB) (player : Player) :
    Lobby × DB × Option TPError :=
  let q := db.First (fun r => r.LobbyId == lobby.ID && r.PlayerId == player.ID)
  match q.2 with
  | some _ => (lobby, db, some (NewTPError "Player is not in the lobby." 5))
  | none => (lobby, db.Save { q.1 with Ready := false }, none)

/-- The method `Lobby.IsPlayerReady`. -/
def IsPlayerReady (lobby : Lobby) (db : DB) (player : Player) : Bool × Option TPError :=
  let q := db.First (fun r => r.LobbyId == lobby.ID && r.PlayerId == player.ID)
  match q.2 with
  | some _ => (false, some (NewTPError "Player is not in the lobby." 5))
  | none => (q.1.Ready, none)

/-- The loop of `IsEveryoneReady`: the first slot that is not ready answers `false`. -/
def everySlotReady : List LobbySlot → Bool
  | [] => true
  | slot :: rest => if !slot.Ready then false else everySlotReady rest

/-- The method `Lobby.IsEveryoneReady`. -/
def IsEveryoneReady (lobby : Lobby) (db : DB) : Bool :=
  let slots := db.FindAll (fun r => r.LobbyId == lobby.ID)
  if (slots.length : Int) ≠ TypePlayerCount lobby.Type_ * 2 then false
  else everySlotReady slots

/-- The method `Lobby.AddSpectator`. -/
def AddSpectator (lobby : Lobby) (db : DB) (player : Player) :
    Lobby × DB × Option TPError :=
  if (GetPlayerSlot lobby db player).2 = none then
    RemovePlayer lobby db player
  else
    (lobby,
     { db with spectators_players_lobbies :=
         joinAppend db.spectators_players_lobbies lobby.ID player.ID },
     none)

/-- The method `Lobby.GetPlayerNumber`. -/
def GetPlayerNumber (lobby : Lobby) (db : DB) : Int :=
  let c := db.CountSlots (fun r => r.LobbyId == lobby.ID)
  match c.2 with
  | some _ => 0
  | none => c.1

/-- The method `Lobby.IsFull`. -/
def IsFull (lobby : Lobby) (db : DB) : Bool :=
  decide (GetPlayerNumber lobby db ≥ 2 * TypePlayerCount lobby.Type_)

/-- The method `Lobby.IsSlotFilled`. -/
def IsSlotFilled (lobby : Lobby) (db : DB) (slot : Int) : Bool :=
  match (GetPlayerIdBySlot lobby db slot).2 with
  | some _ => false
  | none => true

/-! ## Sequences of calls on one lobby -/

/-- One call of a slot, spectator, ban or readiness method on the lobby. -/
inductive Call where
  | AddPlayer (player : Player) (slot : Int)
  | RemovePlayer (player : Player)
  | AddSpectator (player : Player)
  | RemoveSpectator (player : Player)
  | BanPlayer (player : Player)
  | ReadyPlayer (player : Player)
  | UnreadyPlayer (player : Player)
deriving DecidableEq, Repr

/-- The lobby and the store after one call (the returned error is dropped). -/
def Call.run (c : Call) (s : Lobby × DB) : Lobby × DB :=
  match c with
  | .AddPlayer p slot => let r := Helen.AddPlayer s.1 s.2 p slot; (r.1, r.2.1)
  | .RemovePlayer p => let r := Helen.RemovePlayer s.1 s.2 p; (r.1, r.2.1)
  | .AddSpectator p => let r := Helen.AddSpectator s.1 s.2 p; (r.1, r.2.1)
  | .RemoveSpectator p => let r := Helen.RemoveSpectator s.1 s.2 p; (r.1, r.2.1)
  | .BanPlayer p => Helen.BanPlayer s.1 s.2 p
  | .ReadyPlayer p => let r := Helen.ReadyPlayer s.1 s.2 p; (r.1, r.2.1)
  | .UnreadyPlayer p => let r := Helen.UnreadyPlayer s.1 s.2 p; (r.1, r.2.1)

/-- The lobby and the store after a finite sequence of calls, first call first. -/
def runCalls (s : Lobby × DB) (cs : List Call) : Lobby × DB :=
  cs.foldl (fun st c => c.run st) s

/-- The slot rows of a lobby. -/
def lobbyRows (db : DB) (lobbyId : Nat) : List LobbySlot :=
  db.lobby_slots.filter (fun r => r.LobbyId == lobbyId)

/-- Schema constraints of table `lobby_slots`: the rows are listed by strictly increasing
primary key (so the key is unique and `First` meets the row with the smallest key first),
and every key is positive and was handed out by the auto-increment sequence. -/
def DB.WF (db : DB) : Prop :=
  (db.lobby_slots.map (fun r => r.ID)).Pairwise (fun a b => a < b) ∧
  ∀ r ∈ db.lobby_slots, 0 < r.ID ∧ r.ID ≤ db.lobby_slots_seq

instance (db : DB) : Decidable db.WF := by
  unfold DB.WF; infer_instance

/-- An empty store. -/
def DB.empty : DB :=
  { lobby_slots := [], lobby_slots_seq := 0, spectators_players_lobbies := [],
    banned_players_lobbies := [], players := [] }

/-- Capacity of a lobby: two teams of `TypePlayerCount`. -/
def capacity (lobby : Lobby) : Int := 2 * TypePlayerCount lobby.Type_

/-- The store after a successful `AddPlayer`: the player's rows of the lobby and the
spectator entry are gone and the new row is appended. -/
def seated (db : DB) (lobbyId playerId : Nat) (slot : Int) : DB :=
  { lobby_slots :=
      db.lobby_slots.filter (fun r => !(r.PlayerId == playerId && r.LobbyId == lobbyId)) ++
        [{ ID := db.lobby_slots_seq + 1, LobbyId := lobbyId, PlayerId := playerId,
           Slot := slot, Ready := false }]
    lobby_slots_seq := db.lobby_slots_seq + 1
    spectators_players_lobbies := joinDelete db.spectators_players_lobbies lobbyId playerId
    banned_players_lobbies := db.banned_players_lobbies
    players := db.players }

/-- Row update of `ReadyPlayer` and `UnreadyPlayer` seen on one row of the table. -/
def setReady (id : Nat) (b : Bool) (r : LobbySlot) : LobbySlot :=
  if r.ID = id then { r with Ready := b } else r

/-! ## Lobby lifecycle: `TrySettingUp`, `AfterSave`, `Close` -/

/-- A Go map with keys of type `uint`, as a list of entries with at most one entry per
key: the read `m[k]` with its `ok` flag. -/
def mapGet {V : Type} (m : List (Nat × V)) (k : Nat) : Option V :=
  match m.find? (fun e => e.1 == k) with
  | some e => some e.2
  | none => none

/-- The statement `delete(m, k)`. -/
def mapDelete {V : Type} (m : List (Nat × V)) (k : Nat) : List (Nat × V) :=
  m.filter (fun e => !(e.1 == k))

/-- The assignment `m[k] = v`. -/
def mapSet {V : Type} (m : List (Nat × V)) (k : Nat) (v : V) : List (Nat × V) :=
  mapDelete m k ++ [(k, v)]

/-- Modelled from the spec: the two process-wide maps declared in `models/server.go`
(not among the sources).  `LobbyServerSettingUp` is the provisioning guard, a "mapping
from lobby identifier to the timestamp a provisioning attempt began" (`time.Time` is a
`Nat` here); `LobbyServerMap` maps a lobby identifier to its `*Server`, which may be
`nil`.  The map stores the handle as it was when it was stored: a later call made
through `lobby.Server` is not seen through the map. -/
structure Registry where
  LobbyServerSettingUp : List (Nat × Nat)
  LobbyServerMap : List (Nat × Option Server)
deriving DecidableEq, Repr

/-- Modelled from the spec: what the external collaborators answer during one call:
the clock `time.Now()`, the `error` returned by `Server.Setup()` and the `error`
returned by `Server.VerifyInfo()`. -/
structure Outcome where
  now : Nat
  setupErr : Option String
  verifyErr : Option String
deriving DecidableEq, Repr

/-- The hook `Lobby.AfterSave`. -/
def AfterSave (lobby : Lobby) (g : Registry) (o : Outcome) :
    Lobby × Registry × Option String :=
  if lobby.State = LobbyStateEnded then (lobby, g, none)
  else
    match mapGet g.LobbyServerMap lobby.ID with
    | some s => ({ lobby with Server := s }, g, none)
    | none =>
      let s : Server := { NewServer with Type_ := lobby.Type_, LobbyId := lobby.ID }
      match o.verifyErr with
      | some err => (lobby, g, some err)
      | none =>
        let s1 := s.SetupObject
        ({ lobby with Server := some s1 },
         { g with LobbyServerMap := mapSet g.LobbyServerMap lobby.ID (some s1) },
         none)

/-- The call `db.DB.Save(lobby)`, whose result `TrySettingUp` and `Close` drop.  The row
it writes to table `lobbies` is read by no method embedded here, so that table is not
part of `DB`; what remains is the hook `AfterSave`, which gorm runs on the saved
lobby. -/
def saveLobby (lobby : Lobby) (g : Registry) (o : Outcome) : Lobby × Registry :=
  let r := AfterSave lobby g o
  (r.1, r.2.1)

/-- The method `Lobby.Close`.  `lobby.Server.End()` on a lobby without a server follows
the spec ("safe to call even if no resource was ever attached — becomes a no-op"). -/
def Close (lobby : Lobby) (g : Registry) (o : Outcome) : Lobby × Registry :=
  let lobby1 := { lobby with Server := lobby.Server.map Server.End }
  let lobby2 := { lobby1 with State := LobbyStateEnded }
  let g1 := { g with LobbyServerSettingUp := mapDelete g.LobbyServerSettingUp lobby.ID }
  saveLobby lobby2 g1 o

/-- The method `Lobby.TrySettingUp`. -/
def TrySettingUp (lobby : Lobby) (g : Registry) (o : Outcome) :
    Lobby × Registry × Option TPError :=
  if (mapGet g.LobbyServerSettingUp lobby.ID).isSome then
    (lobby, g, some (NewTPError "Lobby setup already in progress" (-1)))
  else
    match lobby.Server with
    | none => (lobby, g, some (NewTPError "Lobby doesn't have a server attached" (-1)))
    | some s =>
      let g1 := { g with
        LobbyServerSettingUp := mapSet g.LobbyServerSettingUp lobby.ID o.now }
      let lobby1 := { lobby with Server := some s.Setup }
      let err := o.setupErr
      let g2 := { g1 with
        LobbyServerSettingUp := mapDelete g1.LobbyServerSettingUp lobby.ID }
      match err with
      | some e =>
        let c := Close lobby1 g2 o
        (c.1, c.2, some (NewTPError e (-1)))
      | none =>
        let lobby2 := { lobby1 with State := LobbyStateWaiting }
        let sv := saveLobby lobby2 g2 o
        (sv.1, sv.2, none)

/-- No player is both the occupant of a slot row of the lobby and one of its
spectators. -/
def SpectatorDisjoint (lobbyId : Nat) (db : DB) : Prop :=
  ∀ r ∈ db.lobby_slots, r.LobbyId = lobbyId →
    (lobbyId, r.PlayerId) ∉ db.spectators_players_lobbies

/-! ## Package `helpers/authority` -/

/-- Go `type AuthAction int`. -/
abbrev AuthAction := Int

/-- Go `type AuthRole int`. -/
abbrev AuthRole := Int

/-- A Go map with keys of an `int` type, as a list of entries with at most one entry per
key: the read `m[k]` with its `ok` flag. -/
def getKey {V : Type} (m : List (Int × V)) (k : Int) : Option V :=
  match m.find? (fun e => e.1 == k) with
  | some e => some e.2
  | none => none

/-- The assignment `m[k] = v`: the entry of `k`, if there is one, is replaced. -/
def setKey {V : Type} (m : List (Int × V)) (k : Int) (v : V) : List (Int × V) :=
  m.filter (fun e => !(e.1 == k)) ++ [(k, v)]

/-- The type `map[AuthAction]bool`. -/
abbrev ActionMap := List (AuthAction × Bool)

/-- The type of the package variable `permissions`, a `map[AuthRole]map[AuthAction]bool`.
An inner map is a reference held by one role only, so a write through `amap` or `mymap`
is a write to the entry of that role. -/
abbrev Permissions := List (AuthRole × ActionMap)

/-- The method `AuthRole.Allow`: the returned role and the table after the call. -/
def AuthRole.Allow (role : AuthRole) (action : AuthAction) (permissions : Permissions) :
    AuthRole × Permissions :=
  match getKey permissions role with
  | some amap => (role, setKey permissions role (setKey amap action true))
  | none =>
    let amap : ActionMap := []
    let permissions1 := setKey permissions role amap
    (role, setKey permissions1 role (setKey amap action true))

/-- The method `AuthRole.Disallow`: the returned role and the table after the call. -/
def AuthRole.Disallow (role : AuthRole) (action : AuthAction) (permissions : Permissions) :
    AuthRole × Permissions :=
  match getKey permissions role with
  | some amap => (role, setKey permissions role (setKey amap action false))
  | none =>
    let amap : ActionMap := []
    let permissions1 := setKey permissions role amap
    (role, setKey permissions1 role (setKey amap action false))

/-- The method `AuthRole.Inherit`: the returned role and the table after the call.  The
loop `for entry, val := range othermap` visits the entries of `othermap` one by one. -/
def AuthRole.Inherit (myrole otherrole : AuthRole) (permissions : Permissions) :
    AuthRole × Permissions :=
  let mymap : ActionMap :=
    match getKey permissions myrole with
    | some m => m
    | none => []
  let permissions1 : Permissions :=
    match getKey permissions myrole with
    | some _ => permissions
    | none => setKey permissions myrole []
  match getKey permissions1 otherrole with
  | none => (myrole, permissions1)
  | some othermap =>
    (myrole,
     setKey permissions1 myrole (othermap.foldl (fun m e => setKey m e.1 e.2) mymap))

/-- The method `AuthRole.Can`: `ok && mymap[action]`, where a missing key reads as
`false`. -/
def AuthRole.Can (role : AuthRole) (action : AuthAction) (permissions : Permissions) :
    Bool :=
  match getKey permissions role with
  | some mymap =>
    (match getKey mymap action with
     | some v => v
     | none => false)
  | none => false

/-- The function `Can(role_int int, action AuthAction)`. -/
def Can (role_int : Int) (action : AuthAction) (permissions : Permissions) : Bool :=
  AuthRole.Can role_int action permissions

/-- The function `Reset`: `permissions` is a fresh empty map. -/
def Reset (_permissions : Permissions) : Permissions := []

/-- One call of the package on the permission table. -/
inductive PermCall where
  | Allow (role : AuthRole) (action : AuthAction)
  | Disallow (role : AuthRole) (action : AuthAction)
  | Inherit (myrole otherrole : AuthRole)
  | Reset
deriving DecidableEq, Repr

/-- The table after one call. -/
def PermCall.run (c : PermCall) (permissions : Permissions) : Permissions :=
  match c with
  | .Allow role action => (AuthRole.Allow role action permissions).2
  | .Disallow role action => (AuthRole.Disallow role action permissions).2
  | .Inherit myrole otherrole => (AuthRole.Inherit myrole otherrole permissions).2
  | .Reset => Helen.Reset permissions

/-- The table after a finite sequence of calls, first call first, from the initial value
`make(map[AuthRole]map[AuthAction]bool)` of `permissions`. -/
def runPermCalls (cs : List PermCall) : Permissions :=
  cs.foldl (fun permissions c => c.run permissions) []

/-- The entry of the table for a role and an action, if the role has a map and the map
has the key. -/
def permEntry (permissions : Permissions) (role : AuthRole) (action : AuthAction) :
    Option Bool :=
  match getKey permissions role with
  | some m => getKey m action
  | none => none

/-- Follows the claim's words, not the code: the value written for `(r, a)` by the most
recent of `Allow(a)`, `Disallow(a)` or an `Inherit` that copied an entry for `a`, applied
to `r` since the last `Reset`; `none` if there is no such call.  The history lists the
most recent call first.  An `Inherit` from `o` copies an entry for `a` when `o` has one
at that time, which is what the earlier calls wrote for `(o, a)`. -/
def lastWritten : List PermCall → AuthRole → AuthAction → Option Bool
  | [], _, _ => none
  | .Reset :: _, _, _ => none
  | .Allow r1 a1 :: earlier, r, a =>
    if r1 = r ∧ a1 = a then some true else lastWritten earlier r a
  | .Disallow r1 a1 :: earlier, r, a =>
    if r1 = r ∧ a1 = a then some false else lastWritten earlier r a
  | .Inherit r1 o :: earlier, r, a =>
    if r1 = r then
      match lastWritten earlier o a with
      | some v => some v
      | none => lastWritten earlier r a
    else lastWritten earlier r a

/-- Every inner map of the table has at most one entry per key. -/
def PermWF (permissions : Permissions) : Prop :=
  ∀ r m, getKey permissions r = some m → (m.map Prod.fst).Nodup

/-! ## Example inputs -/

/-- A new Sixes lobby with primary key 1 and no server attached. -/
def sixesLobby : Lobby :=
  { ID := 1, State := LobbyStateInitializing, Type_ := LobbyTypeSixes, Server := none }

/-- The player with primary key `n`. -/
def playerN (n : Nat) : Player := { ID := n, SteamId := "" }

/-- A store in which player 7 holds slot 3 of lobby 2, a lobby other than `sixesLobby`. -/
def seatedElsewhereDB : DB :=
  { lobby_slots := [{ ID := 1, LobbyId := 2, PlayerId := 7, Slot := 3, Ready := false }]
    lobby_slots_seq := 1
    spectators_players_lobbies := []
    banned_players_lobbies := []
    players := [] }

/-- The calls that seat players 1..12 in slots 0..11. -/
def fillSixesCalls : List Call :=
  (List.range 12).map (fun i => Call.AddPlayer (playerN (i + 1)) (i : Int))

/-- The store after `fillSixesCalls` on a new Sixes lobby. -/
def fullSixesDB : DB := (runCalls (sixesLobby, DB.empty) fillSixesCalls).2

/-- A Sixes lobby with primary key 1 that has ended and still has its server attached. -/
def endedLobby : Lobby :=
  { ID := 1, State := LobbyStateEnded, Type_ := LobbyTypeSixes,
    Server := some { AllowedPlayers := [], LobbyId := 1 } }

/-- A new Sixes lobby with primary key 1 and a server attached. -/
def servedLobby : Lobby :=
  { ID := 1, State := LobbyStateInitializing, Type_ := LobbyTypeSixes,
    Server := some { AllowedPlayers := [], LobbyId := 1 } }

/-- The two process-wide maps with no entry. -/
def Registry.empty : Registry :=
  { LobbyServerSettingUp := [], LobbyServerMap := [] }

/-- A registry in which the setup of lobby 1 is in flight since time 5. -/
def busyRegistry : Registry :=
  { LobbyServerSettingUp := [(1, 5)], LobbyServerMap := [] }

/-- Collaborators that succeed, at time 9. -/
def okOutcome : Outcome := { now := 9, setupErr := none, verifyErr := none }

/-- The store after players 1 and 2 took slots 0 and 1 of the Sixes lobby. -/
def twoSeatedDB : DB :=
  (runCalls (sixesLobby, DB.empty) [.AddPlayer (playerN 1) 0, .AddPlayer (playerN 2) 1]).2

/-- Collaborators of which `Server.Setup` fails, at time 9. -/
def failOutcome : Outcome :=
  { now := 9, setupErr := some "rcon: connection refused", verifyErr := none }

/-- Invariant of the slot table as seen from one lobby: the schema constraints on the
primary key, and for the rows of the lobby distinct slot indices, distinct players and
slot indices within `[0, cap)`. -/
def RowsInv (lobbyId : Nat) (cap : Int) (rows : List LobbySlot) (seq : Nat) : Prop :=
  (rows.map (fun r => r.ID)).Pairwise (fun a b => a < b) ∧
  (∀ r ∈ rows, 0 < r.ID ∧ r.ID ≤ seq) ∧
  ((rows.filter (fun r => r.LobbyId == lobbyId)).map (fun r => r.Slot)).Nodup ∧
  ((rows.filter (fun r => r.LobbyId == lobbyId)).map (fun r => r.PlayerId)).Nodup ∧
  ∀ r ∈ rows, r.LobbyId = lobbyId → 0 ≤ r.Slot ∧ r.Slot < cap

/-- The invariant `RowsInv` on a store. -/
def SlotInv (lobbyId : Nat) (cap : Int) (db : DB) : Prop :=
  RowsInv lobbyId cap db.lobby_slots db.lobby_slots_seq

/-! ## Lemmas on the store -/

theorem TypePlayerCount_nonneg (t : LobbyType) : 0 ≤ TypePlayerCount t := by
  unfold TypePlayerCount; split_ifs <;> omega

@[simp]
theorem updateServerAllowedPlayers_ID (lobby : Lobby) (db : DB) :
    (updateServerAllowedPlayers lobby db).ID = lobby.ID := by
  unfold updateServerAllowedPlayers; split <;> rfl

@[simp]
theorem updateServerAllowedPlayers_Type (lobby : Lobby) (db : DB) :
    (updateServerAllowedPlayers lobby db).Type_ = lobby.Type_ := by
  unfold updateServerAllowedPlayers; split <;> rfl

@[simp]
theorem updateServerAllowedPlayers_State (lobby : Lobby) (db : DB) :
    (updateServerAllowedPlayers lobby db).State = lobby.State := by
  unfold updateServerAllowedPlayers; split <;> rfl

theorem CountBanned_pos (db : DB) (l p : Nat) :
    ((db.CountBanned l p).1 > 0 ∨ (db.CountBanned l p).2 ≠ none) ↔
      (l, p) ∈ db.banned_players_lobbies := by
  unfold DB.CountBanned
  simp only [ne_eq, not_true_eq_false, or_false, gt_iff_lt, Nat.cast_pos, List.length_pos]
  rw [List.filter_eq_nil_iff]
  constructor
  · intro h
    push_neg at h
    obtain ⟨⟨a, b⟩, hm, hc⟩ := h
    simp only [Bool.and_eq_true, beq_iff_eq] at hc
    obtain ⟨rfl, rfl⟩ := hc
    exact hm
  · intro h hall
    have := hall (l, p) h
    simp at this

theorem First_none_iff (db : DB) (cond : LobbySlot → Bool) :
    (db.First cond).2 = none ↔ ∃ r ∈ db.lobby_slots, cond r = true := by
  unfold DB.First
  cases hf : db.lobby_slots.find? cond with
  | none =>
    simp only [reduceCtorEq, false_iff, not_exists, not_and]
    intro r hr hc
    rw [List.find?_eq_none] at hf
    exact hf r hr hc
  | some r =>
    simp only [true_iff]
    exact ⟨r, List.mem_of_find?_eq_some hf, List.find?_some hf⟩

theorem First_some_mem (db : DB) (cond : LobbySlot → Bool) (h : (db.First cond).2 = none) :
    (db.First cond).1 ∈ db.lobby_slots ∧ cond (db.First cond).1 = true ∧
      db.lobby_slots.find? cond = some (db.First cond).1 := by
  unfold DB.First at h ⊢
  cases hf : db.lobby_slots.find? cond with
  | none => rw [hf] at h; simp at h
  | some r => exact ⟨List.mem_of_find?_eq_some hf, List.find?_some hf, rfl⟩

theorem GetPlayerIdBySlot_none_iff (lobby : Lobby) (db : DB) (slot : Int) :
    (GetPlayerIdBySlot lobby db slot).2 = none ↔
      ∃ r ∈ db.lobby_slots, r.LobbyId = lobby.ID ∧ r.Slot = slot := by
  unfold GetPlayerIdBySlot
  simp only [First_none_iff, Bool.and_eq_true, beq_iff_eq]

theorem Find_ne_nil (db : DB) (cond : LobbySlot → Bool) : (db.Find cond).2 ≠ none := by
  unfold DB.Find; split <;> simp

/-- Normal form of `AddPlayer`: the four guards in the order the code tests them, then
the seating. -/
theorem AddPlayer_eq (lobby : Lobby) (db : DB) (player : Player) (slot : Int) :
    AddPlayer lobby db player slot =
      if player.ID = 0 then
        (lobby, db, some (NewTPError "Player not in the database" (-1)))
      else if (lobby.ID, player.ID) ∈ db.banned_players_lobbies then
        (lobby, db, some (NewTPError "The player has been banned from this lobby." 4))
      else if slot ≥ 2 * TypePlayerCount lobby.Type_ ∨ slot < 0 then
        (lobby, db, some (NewTPError "This slot does not exist." 3))
      else if ∃ r ∈ db.lobby_slots, r.LobbyId = lobby.ID ∧ r.Slot = slot then
        (lobby, db, some (NewTPError "This slot has been filled." 2))
      else
        (updateServerAllowedPlayers
            (updateServerAllowedPlayers lobby
              (db.Delete (fun r => r.PlayerId == player.ID && r.LobbyId == lobby.ID)).1)
            (seated db lobby.ID player.ID slot),
          seated db lobby.ID player.ID slot, none) := by
  unfold AddPlayer
  by_cases h0 : player.ID = 0
  · simp only [h0, if_true]
  simp only [h0, if_false, CountBanned_pos]
  by_cases hb : (lobby.ID, player.ID) ∈ db.banned_players_lobbies
  · simp only [hb, if_true]
  simp only [hb, if_false]
  by_cases hs : slot ≥ 2 * TypePlayerCount lobby.Type_ ∨ slot < 0
  · simp only [hs, if_true]
  simp only [hs, if_false, Find_ne_nil, false_and, beq_iff_eq, GetPlayerIdBySlot_none_iff]
  by_cases hf : ∃ r ∈ db.lobby_slots, r.LobbyId = lobby.ID ∧ r.Slot = slot
  · simp only [hf, decide_True, if_true]
  simp only [hf, decide_False, if_false, Bool.false_eq_true]
  simp only [RemovePlayer, RemoveSpectator, DB.Delete, DB.Create, seated,
    updateServerAllowedPlayers_ID]

/-! ## Preservation of the slot-table invariant -/

theorem length_le_of_nodup_range (l : List Int) (c : Int) (hc : 0 ≤ c) (hnd : l.Nodup)
    (hr : ∀ x ∈ l, 0 ≤ x ∧ x < c) : (l.length : Int) ≤ c := by
  have h1 : l.toFinset ⊆ Finset.Ico 0 c := by
    intro x hx
    rw [List.mem_toFinset] at hx
    rw [Finset.mem_Ico]
    exact hr x hx
  have h2 := Finset.card_le_card h1
  rw [List.toFinset_card_of_nodup hnd, Int.card_Ico] at h2
  omega

theorem nodup_of_increasing {l : List Nat} (h : l.Pairwise (fun a b => a < b)) : l.Nodup :=
  h.imp (fun hab => Nat.ne_of_lt hab)

theorem RowsInv_sublist {L : Nat} {c : Int} {rows rows2 : List LobbySlot} {seq : Nat}
    (h : RowsInv L c rows seq) (hs : rows2.Sublist rows) : RowsInv L c rows2 seq := by
  obtain ⟨h1, h2, h3, h4, h5⟩ := h
  refine ⟨h1.sublist (hs.map _), fun r hr => h2 r (hs.subset hr),
    h3.sublist ((hs.filter _).map _), h4.sublist ((hs.filter _).map _),
    fun r hr => h5 r (hs.subset hr)⟩

theorem RowsInv_filter {L : Nat} {c : Int} {rows : List LobbySlot} {seq : Nat}
    (h : RowsInv L c rows seq) (p : LobbySlot → Bool) : RowsInv L c (rows.filter p) seq :=
  RowsInv_sublist h (List.filter_sublist rows)

theorem RowsInv_map {L : Nat} {c : Int} {rows : List LobbySlot} {seq : Nat}
    (h : RowsInv L c rows seq) (g : LobbySlot → LobbySlot)
    (hg : ∀ r, (g r).ID = r.ID ∧ (g r).LobbyId = r.LobbyId ∧ (g r).PlayerId = r.PlayerId ∧
      (g r).Slot = r.Slot) : RowsInv L c (rows.map g) seq := by
  obtain ⟨h1, h2, h3, h4, h5⟩ := h
  have hfilter : (rows.map g).filter (fun r => r.LobbyId == L) =
      (rows.filter (fun r => r.LobbyId == L)).map g := by
    rw [List.filter_map]
    congr 1
    apply List.filter_congr
    intro r _
    simp only [Function.comp_apply, (hg r).2.1]
  have hID : (rows.map g).map (fun r => r.ID) = rows.map (fun r => r.ID) := by
    rw [List.map_map]; apply List.map_congr_left; intro r _; exact (hg r).1
  have hSlot : ((rows.filter (fun r => r.LobbyId == L)).map g).map (fun r => r.Slot)
      = (rows.filter (fun r => r.LobbyId == L)).map (fun r => r.Slot) := by
    rw [List.map_map]; apply List.map_congr_left; intro r _; exact (hg r).2.2.2
  have hPl : ((rows.filter (fun r => r.LobbyId == L)).map g).map (fun r => r.PlayerId)
      = (rows.filter (fun r => r.LobbyId == L)).map (fun r => r.PlayerId) := by
    rw [List.map_map]; apply List.map_congr_left; intro r _; exact (hg r).2.2.1
  refine ⟨by rw [hID]; exact h1, ?_, by rw [hfilter, hSlot]; exact h3,
    by rw [hfilter, hPl]; exact h4, ?_⟩
  · intro r hr
    obtain ⟨r0, hr0, rfl⟩ := List.mem_map.mp hr
    rw [(hg r0).1]; exact h2 r0 hr0
  · intro r hr hL
    obtain ⟨r0, hr0, rfl⟩ := List.mem_map.mp hr
    rw [(hg r0).2.1] at hL
    rw [(hg r0).2.2.2]; exact h5 r0 hr0 hL

theorem RowsInv_seated {L : Nat} {c : Int} {rows : List LobbySlot} {seq : Nat}
    (h : RowsInv L c rows seq) (p : Nat) (slot : Int) (hlo : 0 ≤ slot) (hhi : slot < c)
    (hfree : ¬ ∃ r ∈ rows, r.LobbyId = L ∧ r.Slot = slot) :
    RowsInv L c
      (rows.filter (fun r => !(r.PlayerId == p && r.LobbyId == L)) ++
        [{ ID := seq + 1, LobbyId := L, PlayerId := p, Slot := slot, Ready := false }])
      (seq + 1) := by
  have hf := RowsInv_filter h (fun r => !(r.PlayerId == p && r.LobbyId == L))
  obtain ⟨h1, h2, h3, h4, h5⟩ := hf
  have hmemf : ∀ r, r ∈ rows.filter (fun r => !(r.PlayerId == p && r.LobbyId == L)) →
      r ∈ rows ∧ ¬ (r.PlayerId = p ∧ r.LobbyId = L) := by
    intro r hr
    rw [List.mem_filter] at hr
    refine ⟨hr.1, ?_⟩
    have := hr.2
    simp only [Bool.not_eq_true', Bool.and_eq_false_iff, beq_eq_false_iff_ne, ne_eq] at this
    tauto
  refine ⟨?_, ?_, ?_, ?_, ?_⟩
  · rw [List.map_append, List.pairwise_append]
    refine ⟨h1, by simp, ?_⟩
    intro a ha b hb
    simp only [List.map_cons, List.map_nil, List.mem_singleton] at hb
    obtain ⟨r, hr, rfl⟩ := List.mem_map.mp ha
    have := (h2 r hr).2
    omega
  · intro r hr
    rw [List.mem_append, List.mem_singleton] at hr
    rcases hr with hr | rfl
    · have := h2 r hr; omega
    · simp
  · rw [List.filter_append, List.map_append, List.nodup_append]
    refine ⟨h3, (List.Sublist.map _ (List.filter_sublist _)).nodup (by simp), ?_⟩
    intro a ha hb
    obtain ⟨r, hr, rfl⟩ := List.mem_map.mp ha
    rw [List.mem_filter] at hr
    obtain ⟨r2, hr2, hr2e⟩ := List.mem_map.mp hb
    rw [List.mem_filter, List.mem_singleton] at hr2
    apply hfree
    refine ⟨r, (hmemf r hr.1).1, by simpa using hr.2, ?_⟩
    rw [← hr2e, hr2.1]
  · rw [List.filter_append, List.map_append, List.nodup_append]
    refine ⟨h4, (List.Sublist.map _ (List.filter_sublist _)).nodup (by simp), ?_⟩
    intro a ha hb
    obtain ⟨r, hr, rfl⟩ := List.mem_map.mp ha
    rw [List.mem_filter] at hr
    obtain ⟨r2, hr2, hr2e⟩ := List.mem_map.mp hb
    rw [List.mem_filter, List.mem_singleton] at hr2
    apply (hmemf r hr.1).2
    refine ⟨?_, by simpa using hr.2⟩
    rw [← hr2e, hr2.1]
  · intro r hr hL
    rw [List.mem_append, List.mem_singleton] at hr
    rcases hr with hr | rfl
    · exact h5 r hr hL
    · exact ⟨hlo, hhi⟩

theorem Save_setReady (db : DB) (r0 : LobbySlot) (b : Bool)
    (hnd : (db.lobby_slots.map (fun r => r.ID)).Nodup) (hpos : 0 < r0.ID)
    (hmem : r0 ∈ db.lobby_slots) :
    db.Save { r0 with Ready := b } =
      { db with lobby_slots := db.lobby_slots.map (setReady r0.ID b) } := by
  unfold DB.Save
  have hne : ¬ r0.ID = 0 := by omega
  simp only [hne, if_false]
  congr 1
  apply List.map_congr_left
  intro r hr
  unfold setReady
  by_cases hid : r.ID = r0.ID
  · have : r = r0 := List.inj_on_of_nodup_map hnd hr hmem hid
    subst this
    simp
  · simp [hid]

theorem setReady_fields (id : Nat) (b : Bool) (r : LobbySlot) :
    (setReady id b r).ID = r.ID ∧ (setReady id b r).LobbyId = r.LobbyId ∧
      (setReady id b r).PlayerId = r.PlayerId ∧ (setReady id b r).Slot = r.Slot := by
  unfold setReady; split_ifs <;> simp

/-- Normal form of `ReadyPlayer` on a store that meets the schema constraints. -/
theorem ReadyPlayer_eq (lobby : Lobby) (db : DB) (player : Player)
    (hnd : (db.lobby_slots.map (fun r => r.ID)).Nodup)
    (hpos : ∀ r ∈ db.lobby_slots, 0 < r.ID) :
    ReadyPlayer lobby db player =
      match db.lobby_slots.find? (fun r => r.LobbyId == lobby.ID && r.PlayerId == player.ID) with
      | none => (lobby, db, some (NewTPError "Player is not in the lobby." 5))
      | some r =>
        (lobby, { db with lobby_slots := db.lobby_slots.map (setReady r.ID true) }, none) := by
  unfold ReadyPlayer DB.First
  cases hf : db.lobby_slots.find? (fun r => r.LobbyId == lobby.ID && r.PlayerId == player.ID) with
  | none => rfl
  | some r =>
    have hm := List.mem_of_find?_eq_some hf
    simp only [Save_setReady db r true hnd (hpos r hm) hm]

/-- Normal form of `UnreadyPlayer` on a store that meets the schema constraints. -/
theorem UnreadyPlayer_eq (lobby : Lobby) (db : DB) (player : Player)
    (hnd : (db.lobby_slots.map (fun r => r.ID)).Nodup)
    (hpos : ∀ r ∈ db.lobby_slots, 0 < r.ID) :
    UnreadyPlayer lobby db player =
      match db.lobby_slots.find? (fun r => r.LobbyId == lobby.ID && r.PlayerId == player.ID) with
      | none => (lobby, db, some (NewTPError "Player is not in the lobby." 5))
      | some r =>
        (lobby, { db with lobby_slots := db.lobby_slots.map (setReady r.ID false) }, none) := by
  unfold UnreadyPlayer DB.First
  cases hf : db.lobby_slots.find? (fun r => r.LobbyId == lobby.ID && r.PlayerId == player.ID) with
  | none => rfl
  | some r =>
    have hm := List.mem_of_find?_eq_some hf
    simp only [Save_setReady db r false hnd (hpos r hm) hm]

theorem RemovePlayer_eq (lobby : Lobby) (db : DB) (player : Player) :
    RemovePlayer lobby db player =
      (updateServerAllowedPlayers lobby
          (db.Delete (fun r => r.PlayerId == player.ID && r.LobbyId == lobby.ID)).1,
        (db.Delete (fun r => r.PlayerId == player.ID && r.LobbyId == lobby.ID)).1,
        none) := rfl

theorem SlotInv_of_new (L : Nat) (c : Int) (db : DB) (hwf : db.WF)
    (hnew : lobbyRows db L = []) : SlotInv L c db := by
  unfold lobbyRows at hnew
  refine ⟨hwf.1, hwf.2, by rw [hnew]; simp, by rw [hnew]; simp, ?_⟩
  intro r hr hL
  have : r ∈ db.lobby_slots.filter (fun r => r.LobbyId == L) := by
    rw [List.mem_filter]; exact ⟨hr, by simpa using hL⟩
  rw [hnew] at this
  simp at this

theorem AddPlayer_inv (lobby : Lobby) (db : DB) (player : Player) (slot : Int)
    (h : SlotInv lobby.ID (capacity lobby) db) :
    (AddPlayer lobby db player slot).1.ID = lobby.ID ∧
    (AddPlayer lobby db player slot).1.Type_ = lobby.Type_ ∧
    SlotInv lobby.ID (capacity lobby) (AddPlayer lobby db player slot).2.1 := by
  rw [AddPlayer_eq]
  split_ifs with h0 hb hs hf
  · exact ⟨rfl, rfl, h⟩
  · exact ⟨rfl, rfl, h⟩
  · exact ⟨rfl, rfl, h⟩
  · exact ⟨rfl, rfl, h⟩
  · refine ⟨by simp, by simp, ?_⟩
    have hs2 : 0 ≤ slot ∧ slot < capacity lobby := by
      unfold capacity; omega
    exact RowsInv_seated h player.ID slot hs2.1 hs2.2 hf

theorem RemovePlayer_inv (lobby : Lobby) (db : DB) (player : Player) (L : Nat) (c : Int)
    (h : SlotInv L c db) :
    (RemovePlayer lobby db player).1.ID = lobby.ID ∧
    (RemovePlayer lobby db player).1.Type_ = lobby.Type_ ∧
    SlotInv L c (RemovePlayer lobby db player).2.1 := by
  rw [RemovePlayer_eq]
  exact ⟨by simp, by simp, RowsInv_filter h _⟩

theorem AddSpectator_inv (lobby : Lobby) (db : DB) (player : Player) (L : Nat) (c : Int)
    (h : SlotInv L c db) :
    (AddSpectator lobby db player).1.ID = lobby.ID ∧
    (AddSpectator lobby db player).1.Type_ = lobby.Type_ ∧
    SlotInv L c (AddSpectator lobby db player).2.1 := by
  unfold AddSpectator
  split_ifs
  · exact RemovePlayer_inv lobby db player L c h
  · exact ⟨rfl, rfl, h⟩

theorem ReadyPlayer_inv (lobby : Lobby) (db : DB) (player : Player) (L : Nat) (c : Int)
    (h : SlotInv L c db) :
    (ReadyPlayer lobby db player).1.ID = lobby.ID ∧
    (ReadyPlayer lobby db player).1.Type_ = lobby.Type_ ∧
    SlotInv L c (ReadyPlayer lobby db player).2.1 := by
  rw [ReadyPlayer_eq lobby db player (nodup_of_increasing h.1) (fun r hr => (h.2.1 r hr).1)]
  split
  · exact ⟨rfl, rfl, h⟩
  · exact ⟨rfl, rfl, RowsInv_map h _ (setReady_fields _ _)⟩

theorem UnreadyPlayer_inv (lobby : Lobby) (db : DB) (player : Player) (L : Nat) (c : Int)
    (h : SlotInv L c db) :
    (UnreadyPlayer lobby db player).1.ID = lobby.ID ∧
    (UnreadyPlayer lobby db player).1.Type_ = lobby.Type_ ∧
    SlotInv L c (UnreadyPlayer lobby db player).2.1 := by
  rw [UnreadyPlayer_eq lobby db player (nodup_of_increasing h.1)
    (fun r hr => (h.2.1 r hr).1)]
  split
  · exact ⟨rfl, rfl, h⟩
  · exact ⟨rfl, rfl, RowsInv_map h _ (setReady_fields _ _)⟩

theorem Call_run_inv (c : Call) (s : Lobby × DB) (h : SlotInv s.1.ID (capacity s.1) s.2) :
    (c.run s).1.ID = s.1.ID ∧ (c.run s).1.Type_ = s.1.Type_ ∧
      SlotInv s.1.ID (capacity s.1) (c.run s).2 := by
  cases c with
  | AddPlayer p slot => exact AddPlayer_inv s.1 s.2 p slot h
  | RemovePlayer p => exact RemovePlayer_inv s.1 s.2 p _ _ h
  | AddSpectator p => exact AddSpectator_inv s.1 s.2 p _ _ h
  | RemoveSpectator p => exact ⟨rfl, rfl, h⟩
  | BanPlayer p => exact ⟨rfl, rfl, h⟩
  | ReadyPlayer p => exact ReadyPlayer_inv s.1 s.2 p _ _ h
  | UnreadyPlayer p => exact UnreadyPlayer_inv s.1 s.2 p _ _ h

theorem runCalls_inv (cs : List Call) (s : Lobby × DB)
    (h : SlotInv s.1.ID (capacity s.1) s.2) :
    (runCalls s cs).1.ID = s.1.ID ∧ (runCalls s cs).1.Type_ = s.1.Type_ ∧
      SlotInv s.1.ID (capacity s.1) (runCalls s cs).2 := by
  induction cs generalizing s with
  | nil => exact ⟨rfl, rfl, h⟩
  | cons c cs ih =>
    obtain ⟨h1, h2, h3⟩ := Call_run_inv c s h
    have hcap : capacity (c.run s).1 = capacity s.1 := by unfold capacity; rw [h2]
    have h3b : SlotInv (c.run s).1.ID (capacity (c.run s).1) (c.run s).2 := by
      rw [h1, hcap]; exact h3
    obtain ⟨i1, i2, i3⟩ := ih (c.run s) h3b
    rw [h1, hcap] at i3
    exact ⟨i1.trans h1, i2.trans h2, i3⟩

theorem filter_length_le_one_of_nodup_map {α : Type} (l : List α) (f : α → Nat) (a : Nat)
    (h : (l.map f).Nodup) : (l.filter (fun r => f r == a)).length ≤ 1 := by
  have h1 := List.nodup_iff_count_le_one.mp h a
  rw [List.count_eq_countP, List.countP_map, List.countP_eq_length_filter] at h1
  exact h1

theorem everySlotReady_iff (l : List LobbySlot) :
    everySlotReady l = true ↔ ∀ r ∈ l, r.Ready = true := by
  induction l with
  | nil => simp [everySlotReady]
  | cons a t ih =>
    unfold everySlotReady
    cases ha : a.Ready <;> simp [ha, ih]

theorem lobbyRows_seated (db : DB) (L p : Nat) (s : Int) :
    lobbyRows (seated db L p s) L =
      (db.lobby_slots.filter (fun r => !(r.PlayerId == p && r.LobbyId == L))).filter
          (fun r => r.LobbyId == L) ++
        [{ ID := db.lobby_slots_seq + 1, LobbyId := L, PlayerId := p, Slot := s,
           Ready := false }] := by
  unfold lobbyRows seated
  simp [List.filter_append]

theorem AddPlayer_ok (lobby : Lobby) (db : DB) (player : Player) (s : Int)
    (hok : (AddPlayer lobby db player s).2.2 = none) :
    (AddPlayer lobby db player s).2.1 = seated db lobby.ID player.ID s := by
  rw [AddPlayer_eq] at hok ⊢
  split_ifs at hok ⊢
  rfl

/-! ## Lemmas on the lifecycle -/

theorem mapGet_mapDelete_self {V : Type} (m : List (Nat × V)) (k : Nat) :
    mapGet (mapDelete m k) k = none := by
  unfold mapGet mapDelete
  have h : (m.filter (fun e => !(e.1 == k))).find? (fun e => e.1 == k) = none := by
    rw [List.find?_eq_none]
    intro e he
    rw [List.mem_filter] at he
    have := he.2
    simpa using this
  rw [h]

theorem mapDelete_mapSet {V : Type} (m : List (Nat × V)) (k : Nat) (v : V) :
    mapDelete (mapSet m k v) k = mapDelete m k := by
  unfold mapSet mapDelete
  simp [List.filter_append, List.filter_filter]

theorem mapDelete_idem {V : Type} (m : List (Nat × V)) (k : Nat) :
    mapDelete (mapDelete m k) k = mapDelete m k := by
  unfold mapDelete
  simp [List.filter_filter]

theorem mapDelete_of_get_none {V : Type} (m : List (Nat × V)) (k : Nat)
    (h : mapGet m k = none) : mapDelete m k = m := by
  unfold mapGet at h
  unfold mapDelete
  cases hf : m.find? (fun e => e.1 == k) with
  | some e => rw [hf] at h; simp at h
  | none =>
    rw [List.find?_eq_none] at hf
    rw [List.filter_eq_self]
    intro e he
    have := hf e he
    simpa using this

theorem AfterSave_fields (lobby : Lobby) (g : Registry) (o : Outcome) :
    (AfterSave lobby g o).1.State = lobby.State ∧ (AfterSave lobby g o).1.ID = lobby.ID ∧
      (AfterSave lobby g o).1.Type_ = lobby.Type_ ∧
      (AfterSave lobby g o).2.1.LobbyServerSettingUp = g.LobbyServerSettingUp := by
  unfold AfterSave
  split_ifs
  · exact ⟨rfl, rfl, rfl, rfl⟩
  · split
    · exact ⟨rfl, rfl, rfl, rfl⟩
    · split <;> exact ⟨rfl, rfl, rfl, rfl⟩

theorem AfterSave_ended (lobby : Lobby) (g : Registry) (o : Outcome)
    (h : lobby.State = LobbyStateEnded) : AfterSave lobby g o = (lobby, g, none) := by
  unfold AfterSave
  simp only [h, if_true]

/-- Normal form of `Close`: the hook `AfterSave` returns at once on the ended lobby. -/
theorem Close_eq (lobby : Lobby) (g : Registry) (o : Outcome) :
    Close lobby g o =
      ({ lobby with Server := lobby.Server.map Server.End, State := LobbyStateEnded },
       { g with LobbyServerSettingUp := mapDelete g.LobbyServerSettingUp lobby.ID }) := by
  unfold Close saveLobby
  simp only []
  rw [AfterSave_ended _ _ _ rfl]

/-- Normal form of `TrySettingUp` once `Server.Setup` is reached. -/
theorem TrySettingUp_reached (lobby : Lobby) (g : Registry) (o : Outcome) (s : Server)
    (hs : lobby.Server = some s) (hg : mapGet g.LobbyServerSettingUp lobby.ID = none) :
    TrySettingUp lobby g o =
      match o.setupErr with
      | some e =>
        ({ lobby with Server := some s.Setup.End, State := LobbyStateEnded },
         g, some (NewTPError e (-1)))
      | none =>
        ((saveLobby { lobby with Server := some s.Setup, State := LobbyStateWaiting } g o).1,
         (saveLobby { lobby with Server := some s.Setup, State := LobbyStateWaiting } g o).2,
         none) := by
  unfold TrySettingUp
  simp only [hg, Option.isSome_none, Bool.false_eq_true, if_false, hs]
  have hdel : mapDelete (mapSet g.LobbyServerSettingUp lobby.ID o.now) lobby.ID
      = g.LobbyServerSettingUp := by
    rw [mapDelete_mapSet, mapDelete_of_get_none _ _ hg]
  cases he : o.setupErr with
  | some e =>
    simp only [Close_eq, hdel, Option.map_some', mapDelete_of_get_none _ _ hg]
  | none =>
    simp only [hdel]

theorem TrySettingUp_State (lobby : Lobby) (g : Registry) (o : Outcome) :
    (TrySettingUp lobby g o).1.State =
      if (mapGet g.LobbyServerSettingUp lobby.ID).isSome ∨ lobby.Server = none
      then lobby.State
      else if o.setupErr = none then LobbyStateWaiting else LobbyStateEnded := by
  cases hg : mapGet g.LobbyServerSettingUp lobby.ID with
  | some t =>
    unfold TrySettingUp
    simp [hg]
  | none =>
    cases hs : lobby.Server with
    | none =>
      unfold TrySettingUp
      simp [hg, hs]
    | some s =>
      rw [TrySettingUp_reached lobby g o s hs hg]
      cases he : o.setupErr with
      | some e => simp
      | none =>
        simp only [Option.isSome_none, Bool.false_eq_true, reduceCtorEq, or_self, if_false,
          if_true]
        unfold saveLobby
        exact (AfterSave_fields _ g o).1

/-- Normal form of `ReadyPlayer` on any store. -/
theorem ReadyPlayer_cases (lobby : Lobby) (db : DB) (player : Player) :
    ReadyPlayer lobby db player =
      if ∃ r ∈ db.lobby_slots, r.LobbyId = lobby.ID ∧ r.PlayerId = player.ID then
        (lobby,
         db.Save { (db.First (fun r => r.LobbyId == lobby.ID && r.PlayerId == player.ID)).1
                   with Ready := true },
         none)
      else (lobby, db, some (NewTPError "Player is not in the lobby." 5)) := by
  have hiff := First_none_iff db (fun r => r.LobbyId == lobby.ID && r.PlayerId == player.ID)
  simp only [Bool.and_eq_true, beq_iff_eq] at hiff
  unfold ReadyPlayer
  simp only []
  by_cases hex : ∃ r ∈ db.lobby_slots, r.LobbyId = lobby.ID ∧ r.PlayerId = player.ID
  · rw [if_pos hex, hiff.mpr hex]
  · rw [if_neg hex]
    cases hq : (db.First (fun r => r.LobbyId == lobby.ID && r.PlayerId == player.ID)).2 with
    | none => exact absurd (hiff.mp hq) hex
    | some e => rfl

/-- Normal form of `UnreadyPlayer` on any store. -/
theorem UnreadyPlayer_cases (lobby : Lobby) (db : DB) (player : Player) :
    UnreadyPlayer lobby db player =
      if ∃ r ∈ db.lobby_slots, r.LobbyId = lobby.ID ∧ r.PlayerId = player.ID then
        (lobby,
         db.Save { (db.First (fun r => r.LobbyId == lobby.ID && r.PlayerId == player.ID)).1
                   with Ready := false },
         none)
      else (lobby, db, some (NewTPError "Player is not in the lobby." 5)) := by
  have hiff := First_none_iff db (fun r => r.LobbyId == lobby.ID && r.PlayerId == player.ID)
  simp only [Bool.and_eq_true, beq_iff_eq] at hiff
  unfold UnreadyPlayer
  simp only []
  by_cases hex : ∃ r ∈ db.lobby_slots, r.LobbyId = lobby.ID ∧ r.PlayerId = player.ID
  · rw [if_pos hex, hiff.mpr hex]
  · rw [if_neg hex]
    cases hq : (db.First (fun r => r.LobbyId == lobby.ID && r.PlayerId == player.ID)).2 with
    | none => exact absurd (hiff.mp hq) hex
    | some e => rfl

/-- Normal form of `IsPlayerReady` on any store. -/
theorem IsPlayerReady_cases (lobby : Lobby) (db : DB) (player : Player) :
    IsPlayerReady lobby db player =
      if ∃ r ∈ db.lobby_slots, r.LobbyId = lobby.ID ∧ r.PlayerId = player.ID then
        ((db.First (fun r => r.LobbyId == lobby.ID && r.PlayerId == player.ID)).1.Ready, none)
      else (false, some (NewTPError "Player is not in the lobby." 5)) := by
  have hiff := First_none_iff db (fun r => r.LobbyId == lobby.ID && r.PlayerId == player.ID)
  simp only [Bool.and_eq_true, beq_iff_eq] at hiff
  unfold IsPlayerReady
  simp only []
  by_cases hex : ∃ r ∈ db.lobby_slots, r.LobbyId = lobby.ID ∧ r.PlayerId = player.ID
  · rw [if_pos hex, hiff.mpr hex]
  · rw [if_neg hex]
    cases hq : (db.First (fun r => r.LobbyId == lobby.ID && r.PlayerId == player.ID)).2 with
    | none => exact absurd (hiff.mp hq) hex
    | some e => rfl

/-! ## Preservation of spectator/occupant disjointness -/

theorem Save_mem (db : DB) (row r : LobbySlot) (h : r ∈ (db.Save row).lobby_slots) :
    r ∈ db.lobby_slots ∨ (r.LobbyId = row.LobbyId ∧ r.PlayerId = row.PlayerId) := by
  unfold DB.Save at h
  split_ifs at h
  · unfold DB.Create at h
    simp only [List.mem_append, List.mem_singleton] at h
    rcases h with h | h
    · exact Or.inl h
    · subst h; exact Or.inr (by simp)
  · simp only [List.mem_map] at h
    obtain ⟨a, ha, rfl⟩ := h
    by_cases hid : a.ID = row.ID
    · rw [if_pos hid]; exact Or.inr ⟨rfl, rfl⟩
    · rw [if_neg hid]; exact Or.inl ha

theorem Save_spectators (db : DB) (row : LobbySlot) :
    (db.Save row).spectators_players_lobbies = db.spectators_players_lobbies := by
  unfold DB.Save
  split_ifs <;> rfl

theorem SpectatorDisjoint_Save (L : Nat) (db : DB) (r0 : LobbySlot) (b : Bool)
    (h : SpectatorDisjoint L db) (hmem : r0 ∈ db.lobby_slots) :
    SpectatorDisjoint L (db.Save { r0 with Ready := b }) := by
  intro r hr hL
  rw [Save_spectators]
  rcases Save_mem db _ r hr with h1 | ⟨h1, h2⟩
  · exact h r h1 hL
  · simp only at h1 h2
    rw [h2]
    exact h r0 hmem (h1 ▸ hL)

theorem First_mem_of_seated (lobby : Lobby) (db : DB) (player : Player)
    (hex : ∃ r ∈ db.lobby_slots, r.LobbyId = lobby.ID ∧ r.PlayerId = player.ID) :
    (db.First (fun r => r.LobbyId == lobby.ID && r.PlayerId == player.ID)).1 ∈ db.lobby_slots ∧
    (db.First (fun r => r.LobbyId == lobby.ID && r.PlayerId == player.ID)).1.LobbyId
      = lobby.ID ∧
    (db.First (fun r => r.LobbyId == lobby.ID && r.PlayerId == player.ID)).1.PlayerId
      = player.ID := by
  have hnone : (db.First (fun r => r.LobbyId == lobby.ID && r.PlayerId == player.ID)).2
      = none := by
    rw [First_none_iff]
    simpa using hex
  obtain ⟨h1, h2, _⟩ := First_some_mem db _ hnone
  simp only [Bool.and_eq_true, beq_iff_eq] at h2
  exact ⟨h1, h2.1, h2.2⟩

theorem SpectatorDisjoint_AddPlayer (lobby : Lobby) (db : DB) (player : Player) (slot : Int)
    (h : SpectatorDisjoint lobby.ID db) :
    SpectatorDisjoint lobby.ID (AddPlayer lobby db player slot).2.1 := by
  rw [AddPlayer_eq]
  split_ifs
  · exact h
  · exact h
  · exact h
  · exact h
  · intro r hr hL
    unfold seated at hr ⊢
    unfold joinDelete
    simp only [List.mem_append, List.mem_filter, List.mem_singleton] at hr
    simp only [List.mem_filter, not_and]
    rcases hr with ⟨hr, _⟩ | rfl
    · intro hmem
      exact absurd hmem (h r hr hL)
    · intro _
      simp

theorem SpectatorDisjoint_RemovePlayer (lobby : Lobby) (db : DB) (player : Player) (L : Nat)
    (h : SpectatorDisjoint L db) :
    SpectatorDisjoint L (RemovePlayer lobby db player).2.1 := by
  rw [RemovePlayer_eq]
  intro r hr hL
  unfold DB.Delete at hr
  simp only [List.mem_filter] at hr
  exact h r hr.1 hL

theorem SpectatorDisjoint_AddSpectator (lobby : Lobby) (db : DB) (player : Player)
    (h : SpectatorDisjoint lobby.ID db) :
    SpectatorDisjoint lobby.ID (AddSpectator lobby db player).2.1 := by
  unfold AddSpectator
  split_ifs with hs
  · exact SpectatorDisjoint_RemovePlayer lobby db player lobby.ID h
  · intro r hr hL
    have hne : r.PlayerId ≠ player.ID := by
      intro heq
      apply hs
      unfold GetPlayerSlot
      simp only
      rw [First_none_iff]
      exact ⟨r, hr, by simp [heq, hL]⟩
    unfold joinAppend
    simp only
    split_ifs
    · exact h r hr hL
    · simp only [List.mem_append, List.mem_singleton, Prod.mk.injEq, true_and, not_or]
      exact ⟨h r hr hL, hne⟩

theorem SpectatorDisjoint_RemoveSpectator (lobby : Lobby) (db : DB) (player : Player)
    (L : Nat) (h : SpectatorDisjoint L db) :
    SpectatorDisjoint L (RemoveSpectator lobby db player).2.1 := by
  intro r hr hL hmem
  unfold RemoveSpectator joinDelete at hmem
  simp only [List.mem_filter] at hmem
  exact h r hr hL hmem.1

theorem SpectatorDisjoint_ReadyPlayer (lobby : Lobby) (db : DB) (player : Player)
    (h : SpectatorDisjoint lobby.ID db) :
    SpectatorDisjoint lobby.ID (ReadyPlayer lobby db player).2.1 := by
  rw [ReadyPlayer_cases]
  split_ifs with hex
  · exact SpectatorDisjoint_Save _ db _ true h (First_mem_of_seated lobby db player hex).1
  · exact h

theorem SpectatorDisjoint_UnreadyPlayer (lobby : Lobby) (db : DB) (player : Player)
    (h : SpectatorDisjoint lobby.ID db) :
    SpectatorDisjoint lobby.ID (UnreadyPlayer lobby db player).2.1 := by
  rw [UnreadyPlayer_cases]
  split_ifs with hex
  · exact SpectatorDisjoint_Save _ db _ false h (First_mem_of_seated lobby db player hex).1
  · exact h

theorem Call_run_ID (c : Call) (s : Lobby × DB) : (c.run s).1.ID = s.1.ID := by
  cases c with
  | AddPlayer p slot =>
    show (AddPlayer s.1 s.2 p slot).1.ID = s.1.ID
    rw [AddPlayer_eq]; split_ifs <;> simp
  | RemovePlayer p =>
    show (RemovePlayer s.1 s.2 p).1.ID = s.1.ID
    rw [RemovePlayer_eq]; simp
  | AddSpectator p =>
    show (AddSpectator s.1 s.2 p).1.ID = s.1.ID
    unfold AddSpectator
    split_ifs
    · rw [RemovePlayer_eq]; simp
    · rfl
  | RemoveSpectator p => rfl
  | BanPlayer p => rfl
  | ReadyPlayer p =>
    show (ReadyPlayer s.1 s.2 p).1.ID = s.1.ID
    rw [ReadyPlayer_cases]; split_ifs <;> rfl
  | UnreadyPlayer p =>
    show (UnreadyPlayer s.1 s.2 p).1.ID = s.1.ID
    rw [UnreadyPlayer_cases]; split_ifs <;> rfl

theorem Call_run_disjoint (c : Call) (s : Lobby × DB) (h : SpectatorDisjoint s.1.ID s.2) :
    SpectatorDisjoint s.1.ID (c.run s).2 := by
  cases c with
  | AddPlayer p slot => exact SpectatorDisjoint_AddPlayer s.1 s.2 p slot h
  | RemovePlayer p => exact SpectatorDisjoint_RemovePlayer s.1 s.2 p _ h
  | AddSpectator p => exact SpectatorDisjoint_AddSpectator s.1 s.2 p h
  | RemoveSpectator p => exact SpectatorDisjoint_RemoveSpectator s.1 s.2 p _ h
  | BanPlayer p => exact h
  | ReadyPlayer p => exact SpectatorDisjoint_ReadyPlayer s.1 s.2 p h
  | UnreadyPlayer p => exact SpectatorDisjoint_UnreadyPlayer s.1 s.2 p h

theorem runCalls_disjoint (cs : List Call) (s : Lobby × DB)
    (h : SpectatorDisjoint s.1.ID s.2) :
    (runCalls s cs).1.ID = s.1.ID ∧ SpectatorDisjoint s.1.ID (runCalls s cs).2 := by
  induction cs generalizing s with
  | nil => exact ⟨rfl, h⟩
  | cons c cs ih =>
    have h1 := Call_run_ID c s
    have h2 := Call_run_disjoint c s h
    rw [← h1] at h2
    obtain ⟨i1, i2⟩ := ih (c.run s) h2
    rw [h1] at i2
    exact ⟨i1.trans h1, i2⟩

/-! ## Effect of the readiness methods and of `RemovePlayer` -/

theorem find?_eq_head?_filter (l : List LobbySlot) (p : LobbySlot → Bool) :
    l.find? p = (l.filter p).head? := by
  induction l with
  | nil => rfl
  | cons a t ih =>
    by_cases h : p a = true
    · simp only [List.find?_cons, List.filter_cons, h, if_true, List.head?_cons]
    · simp only [List.find?_cons, List.filter_cons, h, if_false, Bool.false_eq_true, ih]

/-- Rows of the table after the ready flag of the single row `r0` of a player was set. -/
theorem setReady_rows (rows : List LobbySlot) (L p : Nat) (r0 : LobbySlot) (b : Bool)
    (hnd : (rows.map (fun r => r.ID)).Nodup)
    (hone : rows.filter (fun r => r.LobbyId == L && r.PlayerId == p) = [r0]) :
    (rows.map (setReady r0.ID b)).filter (fun r => r.LobbyId == L && r.PlayerId == p) =
        [{ r0 with Ready := b }] ∧
      (rows.map (setReady r0.ID b)).filter (fun r => !(r.LobbyId == L && r.PlayerId == p)) =
        rows.filter (fun r => !(r.LobbyId == L && r.PlayerId == p)) := by
  have hr0 : r0 ∈ rows.filter (fun r => r.LobbyId == L && r.PlayerId == p) := by
    rw [hone]; exact List.mem_singleton_self r0
  rw [List.mem_filter] at hr0
  constructor
  · rw [List.filter_map]
    have hc : rows.filter ((fun r => r.LobbyId == L && r.PlayerId == p) ∘ setReady r0.ID b)
        = rows.filter (fun r => r.LobbyId == L && r.PlayerId == p) := by
      apply List.filter_congr
      intro r _
      simp only [Function.comp_apply, (setReady_fields r0.ID b r).2.1,
        (setReady_fields r0.ID b r).2.2.1]
    rw [hc, hone]
    simp [setReady]
  · rw [List.filter_map]
    have hc : rows.filter
        ((fun r => !(r.LobbyId == L && r.PlayerId == p)) ∘ setReady r0.ID b)
        = rows.filter (fun r => !(r.LobbyId == L && r.PlayerId == p)) := by
      apply List.filter_congr
      intro r _
      simp only [Function.comp_apply, (setReady_fields r0.ID b r).2.1,
        (setReady_fields r0.ID b r).2.2.1]
    rw [hc]
    conv_rhs => rw [← List.map_id (rows.filter (fun r => !(r.LobbyId == L && r.PlayerId == p)))]
    apply List.map_congr_left
    intro r hr
    rw [List.mem_filter] at hr
    unfold setReady
    by_cases hid : r.ID = r0.ID
    · have heq : r = r0 := List.inj_on_of_nodup_map hnd hr.1 hr0.1 hid
      subst heq
      have h1 := hr.2
      have h2 := hr0.2
      simp only [h2, Bool.not_true, Bool.false_eq_true] at h1
    · simp [hid]

/-- What a store shows once the ready flag of the single row `r0` of the player is `b`. -/
theorem readiness_after (lobby : Lobby) (db2 : DB) (player : Player) (r0 : LobbySlot)
    (b : Bool)
    (hrow : db2.lobby_slots.filter
        (fun r => r.LobbyId == lobby.ID && r.PlayerId == player.ID) = [{ r0 with Ready := b }]) :
    IsPlayerReady lobby db2 player = (b, none) ∧
      (b = false → IsEveryoneReady lobby db2 = false) := by
  constructor
  · unfold IsPlayerReady DB.First
    rw [find?_eq_head?_filter, hrow]
    rfl
  · intro hb
    subst hb
    unfold IsEveryoneReady DB.FindAll
    simp only []
    split_ifs
    · rfl
    · rw [Bool.eq_false_iff]
      intro hall
      rw [everySlotReady_iff] at hall
      have hm : ({ r0 with Ready := false } : LobbySlot) ∈ db2.lobby_slots.filter
          (fun r => r.LobbyId == lobby.ID && r.PlayerId == player.ID) := by
        rw [hrow]; exact List.mem_singleton_self _
      rw [List.mem_filter] at hm
      have hL : ({ r0 with Ready := false } : LobbySlot) ∈
          db2.lobby_slots.filter (fun r => r.LobbyId == lobby.ID) := by
        rw [List.mem_filter]
        refine ⟨hm.1, ?_⟩
        have := hm.2
        simp only [Bool.and_eq_true] at this
        exact this.1
      have := hall _ hL
      simp at this

theorem updateServerAllowedPlayers_idem (lobby : Lobby) (db : DB) :
    updateServerAllowedPlayers (updateServerAllowedPlayers lobby db) db =
      updateServerAllowedPlayers lobby db := by
  unfold updateServerAllowedPlayers
  cases h : lobby.Server with
  | none => simp [h]
  | some s => simp [Server.SetAllowedPlayers]

/-! ## Occupancy against capacity -/

theorem SlotInv_count_le {L : Nat} {c : Int} {db : DB} (h : SlotInv L c db) (hc : 0 ≤ c) :
    ((lobbyRows db L).length : Int) ≤ c := by
  obtain ⟨_, _, h3, _, h5⟩ := h
  have hlen := length_le_of_nodup_range _ c hc h3
    (by
      intro x hx
      obtain ⟨r, hr, rfl⟩ := List.mem_map.mp hx
      rw [List.mem_filter] at hr
      exact h5 r hr.1 (by simpa using hr.2))
  rw [List.length_map] at hlen
  exact hlen

theorem GetPlayerNumber_eq (lobby : Lobby) (db : DB) :
    GetPlayerNumber lobby db = ((lobbyRows db lobby.ID).length : Int) := rfl

/-! ## Lemmas on the permission table -/

theorem getKey_nil {V : Type} (k : Int) : getKey ([] : List (Int × V)) k = none := rfl

theorem getKey_cons {V : Type} (k0 : Int) (v0 : V) (t : List (Int × V)) (k : Int) :
    getKey ((k0, v0) :: t) k = if k0 = k then some v0 else getKey t k := by
  unfold getKey
  rw [List.find?_cons]
  by_cases h : k0 = k
  · simp [h]
  · have hb : (k0 == k) = false := by simpa using h
    simp [h, hb]

theorem getKey_append {V : Type} (l1 l2 : List (Int × V)) (k : Int) :
    getKey (l1 ++ l2) k =
      match getKey l1 k with
      | some v => some v
      | none => getKey l2 k := by
  induction l1 with
  | nil => rfl
  | cons e t ih =>
    obtain ⟨k0, v0⟩ := e
    rw [List.cons_append, getKey_cons, getKey_cons]
    by_cases h : k0 = k
    · simp [h]
    · simp only [h, if_false]; exact ih

theorem getKey_filter_ne {V : Type} (m : List (Int × V)) (k k1 : Int) :
    getKey (m.filter (fun e => !(e.1 == k))) k1 = if k1 = k then none else getKey m k1 := by
  induction m with
  | nil => simp [getKey_nil]
  | cons e t ih =>
    obtain ⟨k0, v0⟩ := e
    by_cases h0 : k0 = k
    · have hf : ((k0, v0) :: t).filter (fun e => !(e.1 == k)) =
          t.filter (fun e => !(e.1 == k)) := by
        simp [List.filter_cons, h0]
      rw [hf, ih, getKey_cons]
      by_cases h1 : k1 = k
      · simp [h1]
      · have h2 : ¬ k0 = k1 := by rw [h0]; exact fun h => h1 h.symm
        simp [h1, h2]
    · have hf : ((k0, v0) :: t).filter (fun e => !(e.1 == k)) =
          (k0, v0) :: t.filter (fun e => !(e.1 == k)) := by
        simp [List.filter_cons, h0]
      rw [hf, getKey_cons, ih, getKey_cons]
      by_cases h1 : k1 = k
      · simp [h1, h0]
      · simp [h1]

theorem getKey_setKey {V : Type} (m : List (Int × V)) (k : Int) (v : V) (k1 : Int) :
    getKey (setKey m k v) k1 = if k1 = k then some v else getKey m k1 := by
  unfold setKey
  rw [getKey_append, getKey_filter_ne, getKey_cons, getKey_nil]
  by_cases h : k1 = k
  · simp [h]
  · have h2 : ¬ k = k1 := fun e => h e.symm
    simp only [h, if_false, h2]
    cases getKey m k1 <;> rfl

theorem getKey_eq_none_of_not_mem {V : Type} (m : List (Int × V)) (k : Int)
    (h : k ∉ m.map Prod.fst) : getKey m k = none := by
  induction m with
  | nil => rfl
  | cons e t ih =>
    obtain ⟨k0, v0⟩ := e
    simp only [List.map_cons, List.mem_cons, not_or] at h
    rw [getKey_cons]
    have h2 : ¬ k0 = k := fun e => h.1 e.symm
    simp only [h2, if_false]
    exact ih h.2

theorem setKey_keys_nodup {V : Type} (m : List (Int × V)) (k : Int) (v : V)
    (h : (m.map Prod.fst).Nodup) : ((setKey m k v).map Prod.fst).Nodup := by
  unfold setKey
  rw [List.map_append, List.nodup_append]
  refine ⟨h.sublist ((List.filter_sublist m).map _), by simp, ?_⟩
  intro a ha hb
  simp only [List.map_cons, List.map_nil, List.mem_singleton] at hb
  obtain ⟨e, he, rfl⟩ := List.mem_map.mp ha
  rw [List.mem_filter] at he
  have := he.2
  simp only [Bool.not_eq_true', beq_eq_false_iff_ne, ne_eq] at this
  exact this hb

theorem foldl_setKey_keys_nodup (other mine : ActionMap)
    (h : (mine.map Prod.fst).Nodup) :
    ((other.foldl (fun m e => setKey m e.1 e.2) mine).map Prod.fst).Nodup := by
  induction other generalizing mine with
  | nil => exact h
  | cons e t ih =>
    rw [List.foldl_cons]
    exact ih _ (setKey_keys_nodup mine e.1 e.2 h)

/-- The loop of `Inherit`: an entry of `other` overrides, the other entries of `mine`
stay. -/
theorem getKey_foldl_setKey (other mine : ActionMap) (a : AuthAction)
    (hnd : (other.map Prod.fst).Nodup) :
    getKey (other.foldl (fun m e => setKey m e.1 e.2) mine) a =
      match getKey other a with
      | some v => some v
      | none => getKey mine a := by
  induction other generalizing mine with
  | nil => rfl
  | cons e t ih =>
    obtain ⟨k0, v0⟩ := e
    simp only [List.map_cons, List.nodup_cons] at hnd
    rw [List.foldl_cons, ih _ hnd.2, getKey_cons]
    by_cases h : k0 = a
    · subst h
      rw [getKey_eq_none_of_not_mem t k0 hnd.1]
      simp [getKey_setKey]
    · have h2 : ¬ a = k0 := fun e => h e.symm
      simp only [h, if_false, getKey_setKey, h2]

theorem permEntry_setKey (p : Permissions) (r : AuthRole) (m : ActionMap) (r1 : AuthRole)
    (a : AuthAction) :
    permEntry (setKey p r m) r1 a = if r1 = r then getKey m a else permEntry p r1 a := by
  unfold permEntry
  rw [getKey_setKey]
  by_cases h : r1 = r <;> simp [h]

theorem permEntry_of_getKey_none (p : Permissions) (r : AuthRole) (a : AuthAction)
    (h : getKey p r = none) : permEntry p r a = none := by
  unfold permEntry; rw [h]

theorem permEntry_of_getKey_some (p : Permissions) (r : AuthRole) (a : AuthAction)
    (m : ActionMap) (h : getKey p r = some m) : permEntry p r a = getKey m a := by
  unfold permEntry; rw [h]

theorem PermWF_nil : PermWF [] := by
  intro r m h
  rw [getKey_nil] at h
  exact absurd h (by simp)

theorem PermWF_setKey (p : Permissions) (r : AuthRole) (m : ActionMap) (h : PermWF p)
    (hm : (m.map Prod.fst).Nodup) : PermWF (setKey p r m) := by
  intro r1 m1 hget
  rw [getKey_setKey] at hget
  split_ifs at hget
  · injection hget with hget
    rw [← hget]; exact hm
  · exact h r1 m1 hget

/-- The entries of the table after `Allow` or `Disallow`, which write `b`. -/
theorem permEntry_write (role : AuthRole) (action : AuthAction) (b : Bool)
    (p : Permissions) (r1 : AuthRole) (a1 : AuthAction) :
    permEntry
        (match getKey p role with
         | some amap => setKey p role (setKey amap action b)
         | none => setKey (setKey p role []) role (setKey [] action b)) r1 a1 =
      if r1 = role ∧ a1 = action then some b else permEntry p r1 a1 := by
  cases hg : getKey p role with
  | some amap =>
    simp only [permEntry_setKey, getKey_setKey]
    by_cases h1 : r1 = role
    · subst h1
      by_cases h2 : a1 = action
      · simp [h2]
      · simp [h2, permEntry_of_getKey_some p r1 a1 amap hg]
    · simp [h1]
  | none =>
    simp only [permEntry_setKey, getKey_setKey, getKey_nil]
    by_cases h1 : r1 = role
    · subst h1
      by_cases h2 : a1 = action
      · simp [h2]
      · simp [h2, permEntry_of_getKey_none p r1 a1 hg]
    · simp [h1]

theorem PermWF_write (role : AuthRole) (action : AuthAction) (b : Bool)
    (p : Permissions) (h : PermWF p) :
    PermWF
      (match getKey p role with
       | some amap => setKey p role (setKey amap action b)
       | none => setKey (setKey p role []) role (setKey [] action b)) := by
  cases hg : getKey p role with
  | some amap =>
    exact PermWF_setKey p role _ h (setKey_keys_nodup amap action b (h role amap hg))
  | none =>
    exact PermWF_setKey _ role _ (PermWF_setKey p role [] h (by simp))
      (setKey_keys_nodup [] action b (by simp))

theorem Allow_table (role : AuthRole) (action : AuthAction) (p : Permissions) :
    (AuthRole.Allow role action p).2 =
      match getKey p role with
      | some amap => setKey p role (setKey amap action true)
      | none => setKey (setKey p role []) role (setKey [] action true) := by
  unfold AuthRole.Allow
  cases getKey p role <;> rfl

theorem Disallow_table (role : AuthRole) (action : AuthAction) (p : Permissions) :
    (AuthRole.Disallow role action p).2 =
      match getKey p role with
      | some amap => setKey p role (setKey amap action false)
      | none => setKey (setKey p role []) role (setKey [] action false) := by
  unfold AuthRole.Disallow
  cases getKey p role <;> rfl

theorem permEntry_Allow (role : AuthRole) (action : AuthAction) (p : Permissions)
    (r1 : AuthRole) (a1 : AuthAction) :
    permEntry (AuthRole.Allow role action p).2 r1 a1 =
      if r1 = role ∧ a1 = action then some true else permEntry p r1 a1 := by
  rw [Allow_table]; exact permEntry_write role action true p r1 a1

theorem permEntry_Disallow (role : AuthRole) (action : AuthAction) (p : Permissions)
    (r1 : AuthRole) (a1 : AuthAction) :
    permEntry (AuthRole.Disallow role action p).2 r1 a1 =
      if r1 = role ∧ a1 = action then some false else permEntry p r1 a1 := by
  rw [Disallow_table]; exact permEntry_write role action false p r1 a1

theorem Inherit_table (myrole otherrole : AuthRole) (p : Permissions) :
    (AuthRole.Inherit myrole otherrole p).2 =
      match getKey p myrole with
      | some mymap =>
        (match getKey p otherrole with
         | none => p
         | some othermap =>
           setKey p myrole (othermap.foldl (fun m e => setKey m e.1 e.2) mymap))
      | none =>
        (match getKey (setKey p myrole []) otherrole with
         | none => setKey p myrole []
         | some othermap =>
           setKey (setKey p myrole []) myrole
             (othermap.foldl (fun m e => setKey m e.1 e.2) [])) := by
  unfold AuthRole.Inherit
  cases hg : getKey p myrole with
  | some mymap =>
    simp only []
    cases getKey p otherrole <;> rfl
  | none =>
    simp only []
    cases getKey (setKey p myrole []) otherrole <;> rfl

/-- The entries of the table after `Inherit`: for the inheriting role an entry of the
other role overrides, every other entry stays. -/
theorem permEntry_Inherit (myrole otherrole : AuthRole) (p : Permissions) (hwf : PermWF p)
    (r1 : AuthRole) (a1 : AuthAction) :
    permEntry (AuthRole.Inherit myrole otherrole p).2 r1 a1 =
      if r1 = myrole then
        (match permEntry p otherrole a1 with
         | some v => some v
         | none => permEntry p myrole a1)
      else permEntry p r1 a1 := by
  rw [Inherit_table]
  cases hg : getKey p myrole with
  | some mymap =>
    simp only []
    cases ho : getKey p otherrole with
    | none =>
      simp only [permEntry_of_getKey_none p otherrole a1 ho]
      by_cases h1 : r1 = myrole
      · simp [h1]
      · simp [h1]
    | some othermap =>
      simp only [permEntry_setKey, permEntry_of_getKey_some p otherrole a1 othermap ho,
        permEntry_of_getKey_some p myrole a1 mymap hg,
        getKey_foldl_setKey othermap mymap a1 (hwf otherrole othermap ho)]
  | none =>
    simp only []
    have hmine : permEntry p myrole a1 = none := permEntry_of_getKey_none p myrole a1 hg
    rw [getKey_setKey]
    by_cases hom : otherrole = myrole
    · subst hom
      simp only [if_true, permEntry_setKey, List.foldl_nil, getKey_nil, hmine]
      by_cases h1 : r1 = otherrole
      · simp [h1]
      · simp [h1]
    · simp only [hom, if_false]
      cases ho : getKey p otherrole with
      | none =>
        simp only [permEntry_setKey, getKey_nil, permEntry_of_getKey_none p otherrole a1 ho,
          hmine]
      | some othermap =>
        simp only [permEntry_setKey, permEntry_of_getKey_some p otherrole a1 othermap ho,
          hmine, getKey_foldl_setKey othermap [] a1 (hwf otherrole othermap ho), getKey_nil]
        by_cases h1 : r1 = myrole
        · simp [h1]
        · simp [h1]

theorem PermWF_Inherit (myrole otherrole : AuthRole) (p : Permissions) (hwf : PermWF p) :
    PermWF (AuthRole.Inherit myrole otherrole p).2 := by
  rw [Inherit_table]
  have hwf1 : PermWF (setKey p myrole []) := PermWF_setKey p myrole [] hwf (by simp)
  cases hg : getKey p myrole with
  | some mymap =>
    simp only []
    cases ho : getKey p otherrole with
    | none => exact hwf
    | some othermap =>
      exact PermWF_setKey p myrole _ hwf
        (foldl_setKey_keys_nodup othermap mymap (hwf myrole mymap hg))
  | none =>
    simp only []
    cases ho : getKey (setKey p myrole []) otherrole with
    | none => exact hwf1
    | some othermap =>
      exact PermWF_setKey _ myrole _ hwf1 (foldl_setKey_keys_nodup othermap [] (by simp))

theorem PermCall_run_WF (c : PermCall) (p : Permissions) (hwf : PermWF p) :
    PermWF (c.run p) := by
  cases c with
  | Allow role action =>
    show PermWF (AuthRole.Allow role action p).2
    rw [Allow_table]; exact PermWF_write role action true p hwf
  | Disallow role action =>
    show PermWF (AuthRole.Disallow role action p).2
    rw [Disallow_table]; exact PermWF_write role action false p hwf
  | Inherit myrole otherrole => exact PermWF_Inherit myrole otherrole p hwf
  | Reset => exact PermWF_nil

/-- The table after a history (most recent call first) holds, for every role and action,
what `lastWritten` says. -/
theorem permEntry_history (hist : List PermCall) :
    PermWF (hist.foldr (fun c p => c.run p) []) ∧
      ∀ r a, permEntry (hist.foldr (fun c p => c.run p) []) r a = lastWritten hist r a := by
  induction hist with
  | nil => exact ⟨PermWF_nil, fun r a => rfl⟩
  | cons c earlier ih =>
    obtain ⟨hwf, hent⟩ := ih
    refine ⟨PermCall_run_WF c _ hwf, ?_⟩
    intro r a
    rw [List.foldr_cons]
    cases c with
    | Allow role action =>
      show permEntry (AuthRole.Allow role action _).2 r a = _
      rw [permEntry_Allow, hent]
      by_cases h : role = r ∧ action = a
      · obtain ⟨rfl, rfl⟩ := h
        simp [lastWritten]
      · have h2 : ¬ (r = role ∧ a = action) := fun e => h ⟨e.1.symm, e.2.symm⟩
        rw [lastWritten, if_neg h, if_neg h2]
    | Disallow role action =>
      show permEntry (AuthRole.Disallow role action _).2 r a = _
      rw [permEntry_Disallow, hent]
      by_cases h : role = r ∧ action = a
      · obtain ⟨rfl, rfl⟩ := h
        simp [lastWritten]
      · have h2 : ¬ (r = role ∧ a = action) := fun e => h ⟨e.1.symm, e.2.symm⟩
        rw [lastWritten, if_neg h, if_neg h2]
    | Inherit myrole otherrole =>
      show permEntry (AuthRole.Inherit myrole otherrole _).2 r a = _
      rw [permEntry_Inherit _ _ _ hwf, hent, hent, hent]
      by_cases h : myrole = r
      · subst h; simp [lastWritten]
      · have h2 : ¬ r = myrole := fun e => h e.symm
        rw [lastWritten, if_neg h, if_neg h2]
    | Reset => rfl

theorem runPermCalls_eq_foldr (cs : List PermCall) :
    runPermCalls cs = cs.reverse.foldr (fun c p => c.run p) [] := by
  unfold runPermCalls
  rw [List.foldr_reverse]

theorem Can_eq_true_iff (r : AuthRole) (a : AuthAction) (p : Permissions) :
    AuthRole.Can r a p = true ↔ permEntry p r a = some true := by
  unfold AuthRole.Can permEntry
  cases getKey p r with
  | none => simp
  | some m =>
    simp only []
    cases getKey m a with
    | none => simp
    | some v => simp

theorem Can_congr (r r1 : AuthRole) (a a1 : AuthAction) (p q : Permissions)
    (h : permEntry p r a = permEntry q r1 a1) :
    AuthRole.Can r a p = AuthRole.Can r1 a1 q := by
  rw [Bool.eq_iff_iff, Can_eq_true_iff, Can_eq_true_iff, h]

theorem runPermCalls_WF (cs : List PermCall) : PermWF (runPermCalls cs) := by
  rw [runPermCalls_eq_foldr]
  exact (permEntry_history cs.reverse).1

theorem lastWritten_of_not_mentioned (hist : List PermCall) (r : AuthRole) (a : AuthAction)
    (h : ∀ c ∈ hist, c ≠ PermCall.Allow r a ∧ ∀ o, c ≠ PermCall.Inherit r o) :
    lastWritten hist r a ≠ some true := by
  induction hist with
  | nil => simp [lastWritten]
  | cons c earlier ih =>
    have hc := h c (List.mem_cons_self c earlier)
    have ih2 := ih (fun d hd => h d (List.mem_cons_of_mem c hd))
    cases c with
    | Allow r1 a1 =>
      have hne : ¬ (r1 = r ∧ a1 = a) := by
        rintro ⟨rfl, rfl⟩
        exact hc.1 rfl
      rw [lastWritten, if_neg hne]
      exact ih2
    | Disallow r1 a1 =>
      rw [lastWritten]
      split_ifs
      · simp
      · exact ih2
    | Inherit r1 o =>
      have hne : ¬ r1 = r := by
        rintro rfl
        exact hc.2 o rfl
      rw [lastWritten, if_neg hne]
      exact ih2
    | Reset => simp [lastWritten]

/-! ## The claims -/

/-- C1. Capacity invariant: from a store that meets the schema constraints and holds no
slot row of the lobby, after every finite sequence of `AddPlayer`, `RemovePlayer`,
`AddSpectator`, `RemoveSpectator`, `BanPlayer`, `ReadyPlayer` and `UnreadyPlayer` calls
with any players and slots, `GetPlayerNumber` is at most `2 * TypePlayerCount[lobby.Type]`
(12 for Sixes, 18 for Highlander), every slot row of the lobby has its slot index in
`[0, capacity)`, and the slot indices of the lobby's rows are pairwise distinct. -/
theorem capacity_invariant (lobby : Lobby) (db : DB) (hwf : db.WF)
    (hnew : lobbyRows db lobby.ID = []) (cs : List Call) :
    GetPlayerNumber (runCalls (lobby, db) cs).1 (runCalls (lobby, db) cs).2
        ≤ 2 * TypePlayerCount lobby.Type_ ∧
      (∀ r ∈ lobbyRows (runCalls (lobby, db) cs).2 lobby.ID,
        0 ≤ r.Slot ∧ r.Slot < 2 * TypePlayerCount lobby.Type_) ∧
      ((lobbyRows (runCalls (lobby, db) cs).2 lobby.ID).map (fun r => r.Slot)).Nodup ∧
      2 * TypePlayerCount LobbyTypeSixes = 12 ∧
      2 * TypePlayerCount LobbyTypeHighlander = 18 := by
  obtain ⟨hid, _, hinv⟩ :=
    runCalls_inv cs (lobby, db) (SlotInv_of_new lobby.ID (capacity lobby) db hwf hnew)
  obtain ⟨_, _, h3, _, h5⟩ := hinv
  have hrange : ∀ r ∈ lobbyRows (runCalls (lobby, db) cs).2 lobby.ID,
      0 ≤ r.Slot ∧ r.Slot < 2 * TypePlayerCount lobby.Type_ := by
    intro r hr
    unfold lobbyRows at hr
    rw [List.mem_filter] at hr
    exact h5 r hr.1 (by simpa using hr.2)
  refine ⟨?_, hrange, h3, by decide, by decide⟩
  have hlen := length_le_of_nodup_range _ (2 * TypePlayerCount lobby.Type_)
    (by have := TypePlayerCount_nonneg lobby.Type_; omega) h3
    (by
      intro x hx
      obtain ⟨r, hr, rfl⟩ := List.mem_map.mp hx
      exact hrange r hr)
  rw [List.length_map] at hlen
  show ((List.filter _ _).length : Int) ≤ _
  rw [hid]
  exact hlen

/-- Witness of C1: two players competing for slot 0 of a new Sixes lobby, then a switch of
slot and a ready call. -/
theorem capacity_invariant_witness :
    DB.empty.WF ∧ lobbyRows DB.empty sixesLobby.ID = [] ∧
    (GetPlayerNumber
        (runCalls (sixesLobby, DB.empty)
          [.AddPlayer (playerN 1) 0, .AddPlayer (playerN 2) 0, .AddPlayer (playerN 1) 5,
           .ReadyPlayer (playerN 1)]).1
        (runCalls (sixesLobby, DB.empty)
          [.AddPlayer (playerN 1) 0, .AddPlayer (playerN 2) 0, .AddPlayer (playerN 1) 5,
           .ReadyPlayer (playerN 1)]).2
        ≤ 2 * TypePlayerCount sixesLobby.Type_ ∧
      (∀ r ∈ lobbyRows (runCalls (sixesLobby, DB.empty)
          [.AddPlayer (playerN 1) 0, .AddPlayer (playerN 2) 0, .AddPlayer (playerN 1) 5,
           .ReadyPlayer (playerN 1)]).2 sixesLobby.ID,
        0 ≤ r.Slot ∧ r.Slot < 2 * TypePlayerCount sixesLobby.Type_) ∧
      ((lobbyRows (runCalls (sixesLobby, DB.empty)
          [.AddPlayer (playerN 1) 0, .AddPlayer (playerN 2) 0, .AddPlayer (playerN 1) 5,
           .ReadyPlayer (playerN 1)]).2 sixesLobby.ID).map (fun r => r.Slot)).Nodup ∧
      2 * TypePlayerCount LobbyTypeSixes = 12 ∧
      2 * TypePlayerCount LobbyTypeHighlander = 18) :=
  ⟨by decide, rfl, capacity_invariant sixesLobby DB.empty (by decide) rfl _⟩

/-- C2. Player uniqueness invariant: from a store that meets the schema constraints and
holds no slot row of the lobby, after every finite sequence of `AddPlayer`,
`RemovePlayer`, `AddSpectator`, `RemoveSpectator`, `BanPlayer`, `ReadyPlayer` and
`UnreadyPlayer` calls, every player is referenced by at most one slot row of the lobby. -/
theorem player_uniqueness_invariant (lobby : Lobby) (db : DB) (hwf : db.WF)
    (hnew : lobbyRows db lobby.ID = []) (cs : List Call) (player : Player) :
    ((lobbyRows (runCalls (lobby, db) cs).2 lobby.ID).filter
        (fun r => r.PlayerId == player.ID)).length ≤ 1 := by
  obtain ⟨_, _, hinv⟩ :=
    runCalls_inv cs (lobby, db) (SlotInv_of_new lobby.ID (capacity lobby) db hwf hnew)
  exact filter_length_le_one_of_nodup_map _ (fun r : LobbySlot => r.PlayerId) player.ID
    hinv.2.2.2.1

/-- Witness of C2: player 1 is seated, switches slot twice and readies up. -/
theorem player_uniqueness_invariant_witness :
    DB.empty.WF ∧ lobbyRows DB.empty sixesLobby.ID = [] ∧
    ((lobbyRows (runCalls (sixesLobby, DB.empty)
          [.AddPlayer (playerN 1) 0, .AddPlayer (playerN 1) 3, .ReadyPlayer (playerN 1),
           .AddPlayer (playerN 1) 4]).2 sixesLobby.ID).filter
        (fun r => r.PlayerId == (playerN 1).ID)).length ≤ 1 :=
  ⟨by decide, rfl, player_uniqueness_invariant sixesLobby DB.empty (by decide) rfl _ _⟩

/-- C3. For every lobby, every registered player (non-zero id) in the lobby's ban table
and every slot index, `AddPlayer` returns the ban error ("The player has been banned from
this lobby.", code 4) and leaves the store, hence the slot rows, as they were. -/
theorem addPlayer_banned (lobby : Lobby) (db : DB) (player : Player) (slot : Int)
    (hreg : player.ID ≠ 0) (hban : (lobby.ID, player.ID) ∈ db.banned_players_lobbies) :
    (AddPlayer lobby db player slot).2.2 =
        some (NewTPError "The player has been banned from this lobby." 4) ∧
      (AddPlayer lobby db player slot).2.1 = db ∧
      lobbyRows (AddPlayer lobby db player slot).2.1 lobby.ID = lobbyRows db lobby.ID := by
  rw [AddPlayer_eq]
  simp only [hreg, hban, if_true, if_false, and_self]

/-- Witness of C3: player 7 is banned from the Sixes lobby and asks for the empty slot 3. -/
theorem addPlayer_banned_witness :
    (playerN 7).ID ≠ 0 ∧
    (sixesLobby.ID, (playerN 7).ID) ∈
      (BanPlayer sixesLobby DB.empty (playerN 7)).2.banned_players_lobbies ∧
    ((AddPlayer sixesLobby (BanPlayer sixesLobby DB.empty (playerN 7)).2 (playerN 7) 3).2.2 =
        some (NewTPError "The player has been banned from this lobby." 4) ∧
      (AddPlayer sixesLobby (BanPlayer sixesLobby DB.empty (playerN 7)).2 (playerN 7) 3).2.1 =
        (BanPlayer sixesLobby DB.empty (playerN 7)).2 ∧
      lobbyRows
          (AddPlayer sixesLobby (BanPlayer sixesLobby DB.empty (playerN 7)).2 (playerN 7) 3).2.1
          sixesLobby.ID =
        lobbyRows (BanPlayer sixesLobby DB.empty (playerN 7)).2 sixesLobby.ID) :=
  ⟨by decide, by decide,
    addPlayer_banned sixesLobby (BanPlayer sixesLobby DB.empty (playerN 7)).2 (playerN 7) 3
      (by decide) (by decide)⟩

/-- C4 (defect of the code). Player 7 holds a slot of lobby 2; `AddPlayer` into the Sixes
lobby 1 at the free slot 0 returns no error and creates a slot row, where the claim asks
for the already-in-a-lobby error.  The guard compares the `*gorm.DB` handle returned by
`Find`, never `nil`, with `nil`; hence no call of `AddPlayer` ever returns
"Player is already in a lobby" (code 1). -/
theorem addPlayer_seated_elsewhere_accepted :
    (∃ r ∈ seatedElsewhereDB.lobby_slots,
        r.PlayerId = (playerN 7).ID ∧ r.LobbyId ≠ sixesLobby.ID) ∧
      (AddPlayer sixesLobby seatedElsewhereDB (playerN 7) 0).2.2 = none ∧
      (AddPlayer sixesLobby seatedElsewhereDB (playerN 7) 0).2.1.lobby_slots =
        [{ ID := 1, LobbyId := 2, PlayerId := 7, Slot := 3, Ready := false },
         { ID := 2, LobbyId := 1, PlayerId := 7, Slot := 0, Ready := false }] ∧
      ∀ (lobby : Lobby) (db : DB) (player : Player) (slot : Int),
        (AddPlayer lobby db player slot).2.2 ≠
          some (NewTPError "Player is already in a lobby" 1) := by
  refine ⟨by decide, by decide, by decide, ?_⟩
  intro lobby db player slot
  rw [AddPlayer_eq]
  split_ifs <;> simp [NewTPError]

/-- C5 (counterexample). Player 1 holds slot 0 of the Sixes lobby, is registered and not
banned; `AddPlayer` for the same slot does not succeed, it returns the slot-filled
error. -/
theorem addPlayer_same_slot_counterexample :
    (playerN 1).ID ≠ 0 ∧
    (sixesLobby.ID, (playerN 1).ID) ∉
      (AddPlayer sixesLobby DB.empty (playerN 1) 0).2.1.banned_players_lobbies ∧
    GetPlayerSlot sixesLobby (AddPlayer sixesLobby DB.empty (playerN 1) 0).2.1 (playerN 1)
      = (0, none) ∧
    (AddPlayer sixesLobby (AddPlayer sixesLobby DB.empty (playerN 1) 0).2.1 (playerN 1) 0).2.2
      = some (NewTPError "This slot has been filled." 2) ∧
    (AddPlayer sixesLobby (AddPlayer sixesLobby DB.empty (playerN 1) 0).2.1 (playerN 1) 0).2.2
      ≠ none := by
  decide

/-- C5 (amended). For every lobby and every unbanned registered player who holds slot `s`
of that lobby, `AddPlayer(player, s)` returns an error, the slot-filled error (code 2)
when `s` is within `[0, capacity)` and the invalid-slot error (code 3) otherwise, and
leaves the store as it was, so the player remains seated in slot `s`. -/
theorem addPlayer_same_slot_rejected (lobby : Lobby) (db : DB) (player : Player) (s : Int)
    (hreg : player.ID ≠ 0) (hnb : (lobby.ID, player.ID) ∉ db.banned_players_lobbies)
    (hseat : ∃ r ∈ db.lobby_slots,
      r.LobbyId = lobby.ID ∧ r.PlayerId = player.ID ∧ r.Slot = s) :
    (AddPlayer lobby db player s).2.2 =
        some (if s ≥ 2 * TypePlayerCount lobby.Type_ ∨ s < 0
          then NewTPError "This slot does not exist." 3
          else NewTPError "This slot has been filled." 2) ∧
      (AddPlayer lobby db player s).2.1 = db ∧
      ∃ r ∈ (AddPlayer lobby db player s).2.1.lobby_slots,
        r.LobbyId = lobby.ID ∧ r.PlayerId = player.ID ∧ r.Slot = s := by
  have hfilled : ∃ r ∈ db.lobby_slots, r.LobbyId = lobby.ID ∧ r.Slot = s := by
    obtain ⟨r, hr, h1, _, h3⟩ := hseat
    exact ⟨r, hr, h1, h3⟩
  rw [AddPlayer_eq]
  simp only [hreg, hnb, if_false, hfilled, if_true]
  split_ifs <;> exact ⟨rfl, rfl, hseat⟩

/-- Witness of C5 (amended): player 1 holds slot 0 of the Sixes lobby and asks for it
again. -/
theorem addPlayer_same_slot_rejected_witness :
    (AddPlayer sixesLobby (AddPlayer sixesLobby DB.empty (playerN 1) 0).2.1 (playerN 1) 0).2.2
        = some (if (0 : Int) ≥ 2 * TypePlayerCount sixesLobby.Type_ ∨ (0 : Int) < 0
          then NewTPError "This slot does not exist." 3
          else NewTPError "This slot has been filled." 2) ∧
      (AddPlayer sixesLobby (AddPlayer sixesLobby DB.empty (playerN 1) 0).2.1 (playerN 1) 0).2.1
        = (AddPlayer sixesLobby DB.empty (playerN 1) 0).2.1 ∧
      ∃ r ∈ (AddPlayer sixesLobby (AddPlayer sixesLobby DB.empty (playerN 1) 0).2.1
          (playerN 1) 0).2.1.lobby_slots,
        r.LobbyId = sixesLobby.ID ∧ r.PlayerId = (playerN 1).ID ∧ r.Slot = 0 :=
  addPlayer_same_slot_rejected sixesLobby (AddPlayer sixesLobby DB.empty (playerN 1) 0).2.1
    (playerN 1) 0 (by decide) (by decide) (by decide)

/-- C6. For every lobby (of type Sixes, Highlander or any other), every unbanned
registered player and every slot index `s` with `s < 0` or
`s >= 2 * TypePlayerCount[lobby.Type]`, `AddPlayer` returns the invalid-slot error
("This slot does not exist.", code 3) and leaves the store, hence the slot rows, as they
were. -/
theorem addPlayer_invalid_slot (lobby : Lobby) (db : DB) (player : Player) (s : Int)
    (hreg : player.ID ≠ 0) (hnb : (lobby.ID, player.ID) ∉ db.banned_players_lobbies)
    (hs : s < 0 ∨ s ≥ 2 * TypePlayerCount lobby.Type_) :
    (AddPlayer lobby db player s).2.2 = some (NewTPError "This slot does not exist." 3) ∧
      (AddPlayer lobby db player s).2.1 = db ∧
      lobbyRows (AddPlayer lobby db player s).2.1 lobby.ID = lobbyRows db lobby.ID := by
  have hs2 : s ≥ 2 * TypePlayerCount lobby.Type_ ∨ s < 0 := hs.symm
  rw [AddPlayer_eq]
  simp only [hreg, hnb, hs2, if_true, if_false, and_self]

/-- Witness of C6: a 13th player asks for slot 12 of a full Sixes lobby (12 rows). -/
theorem addPlayer_invalid_slot_witness :
    GetPlayerNumber sixesLobby fullSixesDB = 12 ∧
    (playerN 13).ID ≠ 0 ∧
    (sixesLobby.ID, (playerN 13).ID) ∉ fullSixesDB.banned_players_lobbies ∧
    ((12 : Int) < 0 ∨ (12 : Int) ≥ 2 * TypePlayerCount sixesLobby.Type_) ∧
    ((AddPlayer sixesLobby fullSixesDB (playerN 13) 12).2.2 =
        some (NewTPError "This slot does not exist." 3) ∧
      (AddPlayer sixesLobby fullSixesDB (playerN 13) 12).2.1 = fullSixesDB ∧
      lobbyRows (AddPlayer sixesLobby fullSixesDB (playerN 13) 12).2.1 sixesLobby.ID =
        lobbyRows fullSixesDB sixesLobby.ID) :=
  ⟨by decide, by decide, by decide, by decide,
    addPlayer_invalid_slot sixesLobby fullSixesDB (playerN 13) 12 (by decide) (by decide)
      (by decide)⟩

/-- C7. For every lobby, every in-range slot index `s` held by some player `q`, and every
unbanned registered player `p` (other than `q`; the proof does not even use that),
`AddPlayer(p, s)` returns the slot-filled error ("This slot has been filled.", code 2),
leaves the store as it was, and `q` is still the occupant that `GetPlayerIdBySlot` reports
for `s`. -/
theorem addPlayer_slot_filled (lobby : Lobby) (db : DB) (p : Player) (q : Nat) (s : Int)
    (hreg : p.ID ≠ 0) (hnb : (lobby.ID, p.ID) ∉ db.banned_players_lobbies)
    (hlo : 0 ≤ s) (hhi : s < 2 * TypePlayerCount lobby.Type_)
    (hq : GetPlayerIdBySlot lobby db s = (q, none)) :
    (AddPlayer lobby db p s).2.2 = some (NewTPError "This slot has been filled." 2) ∧
      (AddPlayer lobby db p s).2.1 = db ∧
      GetPlayerIdBySlot lobby (AddPlayer lobby db p s).2.1 s = (q, none) := by
  have hfilled : ∃ r ∈ db.lobby_slots, r.LobbyId = lobby.ID ∧ r.Slot = s := by
    rw [← GetPlayerIdBySlot_none_iff, hq]
  have hs : ¬ (s ≥ 2 * TypePlayerCount lobby.Type_ ∨ s < 0) := by omega
  rw [AddPlayer_eq]
  simp only [hreg, hnb, hs, hfilled, if_true, if_false, hq, and_self]

/-- Witness of C7: player 1 holds slot 0 of the Sixes lobby and player 2 asks for it. -/
theorem addPlayer_slot_filled_witness :
    GetPlayerIdBySlot sixesLobby (AddPlayer sixesLobby DB.empty (playerN 1) 0).2.1 0
      = (1, none) ∧
    ((AddPlayer sixesLobby (AddPlayer sixesLobby DB.empty (playerN 1) 0).2.1 (playerN 2) 0).2.2
        = some (NewTPError "This slot has been filled." 2) ∧
      (AddPlayer sixesLobby (AddPlayer sixesLobby DB.empty (playerN 1) 0).2.1 (playerN 2) 0).2.1
        = (AddPlayer sixesLobby DB.empty (playerN 1) 0).2.1 ∧
      GetPlayerIdBySlot sixesLobby
          (AddPlayer sixesLobby (AddPlayer sixesLobby DB.empty (playerN 1) 0).2.1
            (playerN 2) 0).2.1 0
        = (1, none)) :=
  ⟨by decide,
    addPlayer_slot_filled sixesLobby (AddPlayer sixesLobby DB.empty (playerN 1) 0).2.1
      (playerN 2) 1 0 (by decide) (by decide) (by decide) (by decide) (by decide)⟩

/-- C8. Whenever `AddPlayer(player, s)` returns no error: the slot table is the old one
without the player's rows of this lobby, followed by one new row; the rows of the lobby
that reference the player are exactly that one row, with slot index `s` and
`Ready = false`; the player is not in the lobby's spectator set; and the rows of the lobby
that reference other players are unchanged. -/
theorem addPlayer_success_effect (lobby : Lobby) (db : DB) (player : Player) (s : Int)
    (hok : (AddPlayer lobby db player s).2.2 = none) :
    (AddPlayer lobby db player s).2.1.lobby_slots =
        db.lobby_slots.filter (fun r => !(r.PlayerId == player.ID && r.LobbyId == lobby.ID)) ++
          [{ ID := db.lobby_slots_seq + 1, LobbyId := lobby.ID, PlayerId := player.ID,
             Slot := s, Ready := false }] ∧
      (lobbyRows (AddPlayer lobby db player s).2.1 lobby.ID).filter
          (fun r => r.PlayerId == player.ID) =
        [{ ID := db.lobby_slots_seq + 1, LobbyId := lobby.ID, PlayerId := player.ID,
           Slot := s, Ready := false }] ∧
      (lobby.ID, player.ID) ∉ (AddPlayer lobby db player s).2.1.spectators_players_lobbies ∧
      (lobbyRows (AddPlayer lobby db player s).2.1 lobby.ID).filter
          (fun r => !(r.PlayerId == player.ID)) =
        (lobbyRows db lobby.ID).filter (fun r => !(r.PlayerId == player.ID)) := by
  rw [AddPlayer_ok lobby db player s hok]
  refine ⟨rfl, ?_, ?_, ?_⟩
  · rw [lobbyRows_seated, List.filter_append, List.filter_filter, List.filter_filter]
    have hnil : db.lobby_slots.filter (fun r =>
        (r.PlayerId == player.ID && r.LobbyId == lobby.ID &&
          !(r.PlayerId == player.ID && r.LobbyId == lobby.ID))) = [] := by
      rw [List.filter_eq_nil_iff]
      intro r _
      simp
    rw [hnil]
    simp
  · unfold seated joinDelete
    simp
  · rw [lobbyRows_seated, List.filter_append, List.filter_filter, List.filter_filter]
    unfold lobbyRows
    rw [List.filter_filter]
    simp only [List.filter_cons, List.filter_nil, beq_self_eq_true, Bool.not_true,
      Bool.false_eq_true, if_false, List.append_nil]
    apply List.filter_congr
    intro r _
    cases h1 : (r.PlayerId == player.ID) <;> simp

/-- Witness of C8: player 1, ready in slot 0 of the Sixes lobby, moves to slot 5. -/
theorem addPlayer_success_effect_witness :
    (AddPlayer sixesLobby
        (runCalls (sixesLobby, DB.empty)
          [.AddPlayer (playerN 1) 0, .AddPlayer (playerN 2) 1, .ReadyPlayer (playerN 1)]).2
        (playerN 1) 5).2.2 = none ∧
    (lobbyRows (AddPlayer sixesLobby
        (runCalls (sixesLobby, DB.empty)
          [.AddPlayer (playerN 1) 0, .AddPlayer (playerN 2) 1, .ReadyPlayer (playerN 1)]).2
        (playerN 1) 5).2.1 sixesLobby.ID).filter (fun r => r.PlayerId == (playerN 1).ID) =
      [{ ID := 3, LobbyId := 1, PlayerId := 1, Slot := 5, Ready := false }] :=
  ⟨by decide,
    (addPlayer_success_effect sixesLobby
      (runCalls (sixesLobby, DB.empty)
        [.AddPlayer (playerN 1) 0, .AddPlayer (playerN 2) 1, .ReadyPlayer (playerN 1)]).2
      (playerN 1) 5 (by decide)).2.1⟩

/-- C9. For every lobby and store, `IsEveryoneReady` returns true if and only if the
number of slot rows of the lobby equals `2 * TypePlayerCount[lobby.Type]` and every one of
those rows has `Ready = true`; hence a lobby with fewer rows than its capacity is never
reported ready, whatever the flags are. -/
theorem isEveryoneReady_iff (lobby : Lobby) (db : DB) :
    (IsEveryoneReady lobby db = true ↔
        ((lobbyRows db lobby.ID).length : Int) = 2 * TypePlayerCount lobby.Type_ ∧
          ∀ r ∈ lobbyRows db lobby.ID, r.Ready = true) ∧
      ¬ (((lobbyRows db lobby.ID).length : Int) < 2 * TypePlayerCount lobby.Type_ ∧
          IsEveryoneReady lobby db = true) := by
  have hiff : IsEveryoneReady lobby db = true ↔
      ((lobbyRows db lobby.ID).length : Int) = 2 * TypePlayerCount lobby.Type_ ∧
        ∀ r ∈ lobbyRows db lobby.ID, r.Ready = true := by
    unfold IsEveryoneReady DB.FindAll lobbyRows
    by_cases hlen : ((db.lobby_slots.filter (fun r => r.LobbyId == lobby.ID)).length : Int)
        = TypePlayerCount lobby.Type_ * 2
    · simp only [ne_eq, hlen, not_true_eq_false, if_false, everySlotReady_iff]
      constructor
      · intro h; exact ⟨by ring, h⟩
      · intro h; exact h.2
    · simp only [ne_eq, hlen, not_false_eq_true, if_true, Bool.false_eq_true, false_iff]
      intro h
      apply hlen
      rw [h.1]; ring
  refine ⟨hiff, ?_⟩
  rintro ⟨hlt, hr⟩
  have := (hiff.mp hr).1
  omega

/-- C11. For every lobby whose identifier has an entry in the guard map
`LobbyServerSettingUp`, `TrySettingUp` returns the error "Lobby setup already in
progress" (code -1) and leaves the lobby (its state, and its server handle with the
count of `Setup` calls) and both process-wide maps as they were, whatever the
collaborators would have answered. -/
theorem trySettingUp_in_progress (lobby : Lobby) (g : Registry) (o : Outcome) (t : Nat)
    (h : mapGet g.LobbyServerSettingUp lobby.ID = some t) :
    (TrySettingUp lobby g o).2.2 = some (NewTPError "Lobby setup already in progress" (-1)) ∧
      (TrySettingUp lobby g o).1 = lobby ∧
      (TrySettingUp lobby g o).1.State = lobby.State ∧
      (TrySettingUp lobby g o).2.1 = g ∧
      (TrySettingUp lobby g o).2.1.LobbyServerSettingUp = g.LobbyServerSettingUp := by
  unfold TrySettingUp
  simp only [h, Option.isSome_some, if_true, and_self]

/-- Witness of C11: the setup of lobby 1 is in flight and is requested again. -/
theorem trySettingUp_in_progress_witness :
    mapGet busyRegistry.LobbyServerSettingUp servedLobby.ID = some 5 ∧
    ((TrySettingUp servedLobby busyRegistry okOutcome).2.2 =
        some (NewTPError "Lobby setup already in progress" (-1)) ∧
      (TrySettingUp servedLobby busyRegistry okOutcome).1 = servedLobby ∧
      (TrySettingUp servedLobby busyRegistry okOutcome).1.State = servedLobby.State ∧
      (TrySettingUp servedLobby busyRegistry okOutcome).2.1 = busyRegistry ∧
      (TrySettingUp servedLobby busyRegistry okOutcome).2.1.LobbyServerSettingUp =
        busyRegistry.LobbyServerSettingUp) :=
  ⟨by decide, trySettingUp_in_progress servedLobby busyRegistry okOutcome 5 (by decide)⟩

/-- C12. For every lobby with a server attached and no guard entry, if `Server.Setup`
returns an error then after `TrySettingUp`: the lobby's state is Ended, its identifier is
the same, the guard map has no entry for it, the returned error carries the message of
the provisioning failure (code -1), and the server handle has seen one `Setup` and one
`End`. -/
theorem trySettingUp_setup_fails (lobby : Lobby) (g : Registry) (o : Outcome) (s : Server)
    (e : String) (hs : lobby.Server = some s)
    (hg : mapGet g.LobbyServerSettingUp lobby.ID = none) (he : o.setupErr = some e) :
    (TrySettingUp lobby g o).1.State = LobbyStateEnded ∧
      (TrySettingUp lobby g o).1.ID = lobby.ID ∧
      mapGet (TrySettingUp lobby g o).2.1.LobbyServerSettingUp lobby.ID = none ∧
      (TrySettingUp lobby g o).2.2 = some (NewTPError e (-1)) ∧
      (TrySettingUp lobby g o).1.Server = some s.Setup.End := by
  rw [TrySettingUp_reached lobby g o s hs hg, he]
  exact ⟨rfl, rfl, hg, rfl, rfl⟩

/-- Witness of C12: the server of a new Sixes lobby refuses the connection. -/
theorem trySettingUp_setup_fails_witness :
    (TrySettingUp servedLobby Registry.empty failOutcome).1.State = LobbyStateEnded ∧
      (TrySettingUp servedLobby Registry.empty failOutcome).1.ID = servedLobby.ID ∧
      mapGet (TrySettingUp servedLobby Registry.empty failOutcome).2.1.LobbyServerSettingUp
        servedLobby.ID = none ∧
      (TrySettingUp servedLobby Registry.empty failOutcome).2.2 =
        some (NewTPError "rcon: connection refused" (-1)) ∧
      (TrySettingUp servedLobby Registry.empty failOutcome).1.Server =
        some (Server.End (Server.Setup { AllowedPlayers := [], LobbyId := 1 })) :=
  trySettingUp_setup_fails servedLobby Registry.empty failOutcome
    { AllowedPlayers := [], LobbyId := 1 } "rcon: connection refused" (by decide) (by decide)
    (by decide)

/-- C13. For every lobby (in state Initializing or any other) with a server attached and
no guard entry, if `Server.Setup` succeeds then `TrySettingUp` returns no error, the
lobby's state afterwards is Waiting, its identifier is the same, and the guard map has no
entry for it; this holds whether or not the hook `AfterSave` then fails. -/
theorem trySettingUp_setup_succeeds (lobby : Lobby) (g : Registry) (o : Outcome)
    (s : Server) (hs : lobby.Server = some s)
    (hg : mapGet g.LobbyServerSettingUp lobby.ID = none) (he : o.setupErr = none) :
    (TrySettingUp lobby g o).2.2 = none ∧
      (TrySettingUp lobby g o).1.State = LobbyStateWaiting ∧
      (TrySettingUp lobby g o).1.ID = lobby.ID ∧
      mapGet (TrySettingUp lobby g o).2.1.LobbyServerSettingUp lobby.ID = none := by
  rw [TrySettingUp_reached lobby g o s hs hg, he]
  unfold saveLobby
  obtain ⟨h1, h2, _, h4⟩ := AfterSave_fields
    { lobby with Server := some s.Setup, State := LobbyStateWaiting } g o
  refine ⟨rfl, h1, h2, ?_⟩
  show mapGet (AfterSave _ g o).2.1.LobbyServerSettingUp lobby.ID = none
  rw [h4]
  exact hg

/-- Witness of C13: a new Sixes lobby in state Initializing whose server is set up. -/
theorem trySettingUp_setup_succeeds_witness :
    servedLobby.State = LobbyStateInitializing ∧
    ((TrySettingUp servedLobby Registry.empty okOutcome).2.2 = none ∧
      (TrySettingUp servedLobby Registry.empty okOutcome).1.State = LobbyStateWaiting ∧
      (TrySettingUp servedLobby Registry.empty okOutcome).1.ID = servedLobby.ID ∧
      mapGet (TrySettingUp servedLobby Registry.empty okOutcome).2.1.LobbyServerSettingUp
        servedLobby.ID = none) :=
  ⟨rfl, trySettingUp_setup_succeeds servedLobby Registry.empty okOutcome
    { AllowedPlayers := [], LobbyId := 1 } (by decide) (by decide) (by decide)⟩

/-- C14 (counterexample). A Sixes lobby whose state is Ended, with its server still
attached and no guard entry: `TrySettingUp` with a successful `Server.Setup` returns no
error and leaves the lobby in state Waiting, not Ended. -/
theorem ended_not_terminal_counterexample :
    endedLobby.State = LobbyStateEnded ∧
      (TrySettingUp endedLobby Registry.empty okOutcome).2.2 = none ∧
      (TrySettingUp endedLobby Registry.empty okOutcome).1.State = LobbyStateWaiting ∧
      (TrySettingUp endedLobby Registry.empty okOutcome).1.State ≠ LobbyStateEnded := by
  decide

/-- C14 (amended). The state after each operation, for every lobby, store, registry and
collaborator outcome.  `TrySettingUp` keeps the state when it stops at a guard (guard
entry present, or no server attached), sets Waiting when `Server.Setup` succeeds and
Ended when it fails, whatever the state was before; `Close` sets Ended; `AfterSave`,
`AddPlayer`, `RemovePlayer`, `BanPlayer`, `ReadyPlayer`, `UnreadyPlayer`, `AddSpectator`
and `RemoveSpectator` keep the state.  So an Ended lobby stays Ended under every
operation but a `TrySettingUp` whose `Server.Setup` succeeds. -/
theorem state_after_operations (lobby : Lobby) (db : DB) (g : Registry) (o : Outcome)
    (player : Player) (slot : Int) :
    (TrySettingUp lobby g o).1.State =
        (if (mapGet g.LobbyServerSettingUp lobby.ID).isSome ∨ lobby.Server = none
         then lobby.State
         else if o.setupErr = none then LobbyStateWaiting else LobbyStateEnded) ∧
      (Close lobby g o).1.State = LobbyStateEnded ∧
      (AfterSave lobby g o).1.State = lobby.State ∧
      (AddPlayer lobby db player slot).1.State = lobby.State ∧
      (RemovePlayer lobby db player).1.State = lobby.State ∧
      (BanPlayer lobby db player).1.State = lobby.State ∧
      (ReadyPlayer lobby db player).1.State = lobby.State ∧
      (UnreadyPlayer lobby db player).1.State = lobby.State ∧
      (AddSpectator lobby db player).1.State = lobby.State ∧
      (RemoveSpectator lobby db player).1.State = lobby.State := by
  refine ⟨TrySettingUp_State lobby g o, ?_, (AfterSave_fields lobby g o).1, ?_, ?_, rfl,
    ?_, ?_, ?_, rfl⟩
  · rw [Close_eq]
  · rw [AddPlayer_eq]
    split_ifs <;> simp
  · rw [RemovePlayer_eq]; simp
  · rw [ReadyPlayer_cases]; split_ifs <;> rfl
  · rw [UnreadyPlayer_cases]; split_ifs <;> rfl
  · unfold AddSpectator
    split_ifs
    · rw [RemovePlayer_eq]; simp
    · rfl

/-- C15 (counterexample). On a Sixes lobby whose state is Ended, `AddPlayer` of the
registered, unbanned player 1 at the free slot 0 returns no error and creates the slot
row. -/
theorem addPlayer_on_ended_lobby_counterexample :
    endedLobby.State = LobbyStateEnded ∧
      (AddPlayer endedLobby DB.empty (playerN 1) 0).2.2 = none ∧
      (AddPlayer endedLobby DB.empty (playerN 1) 0).2.1.lobby_slots =
        [{ ID := 1, LobbyId := 1, PlayerId := 1, Slot := 0, Ready := false }] ∧
      (AddPlayer endedLobby DB.empty (playerN 1) 0).2.1.lobby_slots ≠
        DB.empty.lobby_slots := by
  decide

/-- C15 (amended). `AddPlayer`, `RemovePlayer`, `BanPlayer`, `ReadyPlayer` and
`UnreadyPlayer` do not consult the state of the lobby: on a lobby whose state is Ended
each returns the same error value and the same store (slot rows, ban table, ready flags)
as on that lobby in any other state `st`. -/
theorem mutations_ignore_state (lobby : Lobby) (db : DB) (player : Player) (slot : Int)
    (st : LobbyState) :
    (AddPlayer { lobby with State := LobbyStateEnded } db player slot).2 =
        (AddPlayer { lobby with State := st } db player slot).2 ∧
      (RemovePlayer { lobby with State := LobbyStateEnded } db player).2 =
        (RemovePlayer { lobby with State := st } db player).2 ∧
      (BanPlayer { lobby with State := LobbyStateEnded } db player).2 =
        (BanPlayer { lobby with State := st } db player).2 ∧
      (ReadyPlayer { lobby with State := LobbyStateEnded } db player).2 =
        (ReadyPlayer { lobby with State := st } db player).2 ∧
      (UnreadyPlayer { lobby with State := LobbyStateEnded } db player).2 =
        (UnreadyPlayer { lobby with State := st } db player).2 := by
  refine ⟨?_, rfl, rfl, ?_, ?_⟩
  · rw [AddPlayer_eq, AddPlayer_eq]
    split_ifs <;> rfl
  · rw [ReadyPlayer_cases, ReadyPlayer_cases]
    split_ifs <;> rfl
  · rw [UnreadyPlayer_cases, UnreadyPlayer_cases]
    split_ifs <;> rfl

/-- C16. For every lobby with a server attached: after `Close` the lobby's state is Ended
and the guard map has no entry for its identifier; a second `Close` yields the same lobby
state and the same two process-wide maps as the first (`Close` returns nothing, so it
reports no error); the second call does call `Server.End` again on the handle. -/
theorem close_idempotent (lobby : Lobby) (g : Registry) (o o2 : Outcome) (s : Server)
    (hs : lobby.Server = some s) :
    (Close lobby g o).1.State = LobbyStateEnded ∧
      mapGet (Close lobby g o).2.LobbyServerSettingUp lobby.ID = none ∧
      (Close (Close lobby g o).1 (Close lobby g o).2 o2).1.State =
        (Close lobby g o).1.State ∧
      (Close (Close lobby g o).1 (Close lobby g o).2 o2).2 = (Close lobby g o).2 ∧
      (Close lobby g o).1.Server = some s.End ∧
      (Close (Close lobby g o).1 (Close lobby g o).2 o2).1.Server = some s.End.End := by
  simp only [Close_eq, hs, Option.map_some', mapGet_mapDelete_self, mapDelete_idem,
    and_self]

/-- Witness of C16: a lobby with its server attached, closed twice while the guard map
holds an entry for it. -/
theorem close_idempotent_witness :
    (Close servedLobby busyRegistry okOutcome).1.State = LobbyStateEnded ∧
      mapGet (Close servedLobby busyRegistry okOutcome).2.LobbyServerSettingUp
        servedLobby.ID = none ∧
      (Close (Close servedLobby busyRegistry okOutcome).1
          (Close servedLobby busyRegistry okOutcome).2 failOutcome).1.State =
        (Close servedLobby busyRegistry okOutcome).1.State ∧
      (Close (Close servedLobby busyRegistry okOutcome).1
          (Close servedLobby busyRegistry okOutcome).2 failOutcome).2 =
        (Close servedLobby busyRegistry okOutcome).2 ∧
      (Close servedLobby busyRegistry okOutcome).1.Server =
        some (Server.End { AllowedPlayers := [], LobbyId := 1 }) ∧
      (Close (Close servedLobby busyRegistry okOutcome).1
          (Close servedLobby busyRegistry okOutcome).2 failOutcome).1.Server =
        some (Server.End (Server.End { AllowedPlayers := [], LobbyId := 1 })) :=
  close_idempotent servedLobby busyRegistry okOutcome failOutcome
    { AllowedPlayers := [], LobbyId := 1 } (by decide)

/-- C17. Spectator/occupant disjointness: from a store that holds no spectator of the
lobby (a new lobby, with or without slot rows), after every finite sequence of
`AddPlayer`, `RemovePlayer`, `AddSpectator` and `RemoveSpectator` calls (and of
`BanPlayer`, `ReadyPlayer`, `UnreadyPlayer` calls as well), no player is both referenced
by a slot row of the lobby and a member of the lobby's spectator set. -/
theorem spectator_occupant_disjoint (lobby : Lobby) (db : DB)
    (hspec : ∀ p : Nat, (lobby.ID, p) ∉ db.spectators_players_lobbies)
    (cs : List Call) (player : Player) :
    ¬ ((∃ r ∈ lobbyRows (runCalls (lobby, db) cs).2 lobby.ID, r.PlayerId = player.ID) ∧
        (lobby.ID, player.ID) ∈ (runCalls (lobby, db) cs).2.spectators_players_lobbies) := by
  have h0 : SpectatorDisjoint lobby.ID db := fun r _ _ => hspec r.PlayerId
  obtain ⟨_, hd⟩ := runCalls_disjoint cs (lobby, db) h0
  rintro ⟨⟨r, hr, hp⟩, hmem⟩
  unfold lobbyRows at hr
  rw [List.mem_filter] at hr
  have hL : r.LobbyId = lobby.ID := by simpa using hr.2
  exact hd r hr.1 hL (hp ▸ hmem)

/-- Witness of C17: player 1 spectates, takes a seat, spectates again (which only frees
the seat) and is seated once more while player 2 spectates. -/
theorem spectator_occupant_disjoint_witness :
    (∀ p : Nat, (sixesLobby.ID, p) ∉ DB.empty.spectators_players_lobbies) ∧
    ¬ ((∃ r ∈ lobbyRows (runCalls (sixesLobby, DB.empty)
            [.AddSpectator (playerN 1), .AddPlayer (playerN 1) 0, .AddSpectator (playerN 1),
             .AddSpectator (playerN 2), .AddPlayer (playerN 1) 3]).2 sixesLobby.ID,
          r.PlayerId = (playerN 1).ID) ∧
        (sixesLobby.ID, (playerN 1).ID) ∈ (runCalls (sixesLobby, DB.empty)
            [.AddSpectator (playerN 1), .AddPlayer (playerN 1) 0, .AddSpectator (playerN 1),
             .AddSpectator (playerN 2), .AddPlayer (playerN 1) 3]).2.spectators_players_lobbies) :=
  ⟨fun _ => List.not_mem_nil _,
    spectator_occupant_disjoint sixesLobby DB.empty (fun _ => List.not_mem_nil _) _ _⟩

/-- C18. `ReadyPlayer`, `UnreadyPlayer` and `IsPlayerReady` return the error "Player is not
in the lobby." (code 5) if and only if no slot row of the lobby references the player;
they return no error if and only if such a row exists; and a call of `ReadyPlayer` or
`UnreadyPlayer` that fails leaves the store as it was. -/
theorem readiness_not_seated_iff (lobby : Lobby) (db : DB) (player : Player) :
    ((ReadyPlayer lobby db player).2.2 = some (NewTPError "Player is not in the lobby." 5) ↔
        ¬ ∃ r ∈ db.lobby_slots, r.LobbyId = lobby.ID ∧ r.PlayerId = player.ID) ∧
      ((UnreadyPlayer lobby db player).2.2 = some (NewTPError "Player is not in the lobby." 5) ↔
        ¬ ∃ r ∈ db.lobby_slots, r.LobbyId = lobby.ID ∧ r.PlayerId = player.ID) ∧
      ((IsPlayerReady lobby db player).2 = some (NewTPError "Player is not in the lobby." 5) ↔
        ¬ ∃ r ∈ db.lobby_slots, r.LobbyId = lobby.ID ∧ r.PlayerId = player.ID) ∧
      ((ReadyPlayer lobby db player).2.2 = none ↔
        ∃ r ∈ db.lobby_slots, r.LobbyId = lobby.ID ∧ r.PlayerId = player.ID) ∧
      ((UnreadyPlayer lobby db player).2.2 = none ↔
        ∃ r ∈ db.lobby_slots, r.LobbyId = lobby.ID ∧ r.PlayerId = player.ID) ∧
      ((IsPlayerReady lobby db player).2 = none ↔
        ∃ r ∈ db.lobby_slots, r.LobbyId = lobby.ID ∧ r.PlayerId = player.ID) ∧
      ((ReadyPlayer lobby db player).2.2 = none ∨ (ReadyPlayer lobby db player).2.1 = db) ∧
      ((UnreadyPlayer lobby db player).2.2 = none ∨
        (UnreadyPlayer lobby db player).2.1 = db) := by
  rw [ReadyPlayer_cases, UnreadyPlayer_cases, IsPlayerReady_cases]
  by_cases hex : ∃ r ∈ db.lobby_slots, r.LobbyId = lobby.ID ∧ r.PlayerId = player.ID
  · simp [hex]
  · simp [hex]

/-- C19. For every lobby, every store that meets the schema constraints and every player
with exactly one slot row `r0` in the lobby: `ReadyPlayer` succeeds and then
`IsPlayerReady` returns true; `UnreadyPlayer` succeeds and then `IsPlayerReady` returns
false and `IsEveryoneReady` is false; in both cases the player's row is `r0` with only the
ready flag set (same key, slot index and occupant) and every other row of the table is
unchanged. -/
theorem ready_flag_effect (lobby : Lobby) (db : DB) (player : Player) (r0 : LobbySlot)
    (hwf : db.WF)
    (hone : db.lobby_slots.filter
      (fun r => r.LobbyId == lobby.ID && r.PlayerId == player.ID) = [r0]) :
    ((ReadyPlayer lobby db player).2.2 = none ∧
      IsPlayerReady lobby (ReadyPlayer lobby db player).2.1 player = (true, none) ∧
      (ReadyPlayer lobby db player).2.1.lobby_slots.filter
          (fun r => r.LobbyId == lobby.ID && r.PlayerId == player.ID) =
        [{ r0 with Ready := true }] ∧
      (ReadyPlayer lobby db player).2.1.lobby_slots.filter
          (fun r => !(r.LobbyId == lobby.ID && r.PlayerId == player.ID)) =
        db.lobby_slots.filter
          (fun r => !(r.LobbyId == lobby.ID && r.PlayerId == player.ID))) ∧
    ((UnreadyPlayer lobby db player).2.2 = none ∧
      IsPlayerReady lobby (UnreadyPlayer lobby db player).2.1 player = (false, none) ∧
      IsEveryoneReady lobby (UnreadyPlayer lobby db player).2.1 = false ∧
      (UnreadyPlayer lobby db player).2.1.lobby_slots.filter
          (fun r => r.LobbyId == lobby.ID && r.PlayerId == player.ID) =
        [{ r0 with Ready := false }] ∧
      (UnreadyPlayer lobby db player).2.1.lobby_slots.filter
          (fun r => !(r.LobbyId == lobby.ID && r.PlayerId == player.ID)) =
        db.lobby_slots.filter
          (fun r => !(r.LobbyId == lobby.ID && r.PlayerId == player.ID))) := by
  have hnd := nodup_of_increasing hwf.1
  have hpos : ∀ r ∈ db.lobby_slots, 0 < r.ID := fun r hr => (hwf.2 r hr).1
  have hfind : db.lobby_slots.find?
      (fun r => r.LobbyId == lobby.ID && r.PlayerId == player.ID) = some r0 := by
    rw [find?_eq_head?_filter, hone]; rfl
  constructor
  · rw [ReadyPlayer_eq lobby db player hnd hpos, hfind]
    obtain ⟨h1, h2⟩ := setReady_rows db.lobby_slots lobby.ID player.ID r0 true hnd hone
    exact ⟨rfl, (readiness_after lobby _ player r0 true h1).1, h1, h2⟩
  · rw [UnreadyPlayer_eq lobby db player hnd hpos, hfind]
    obtain ⟨h1, h2⟩ := setReady_rows db.lobby_slots lobby.ID player.ID r0 false hnd hone
    exact ⟨rfl, (readiness_after lobby _ player r0 false h1).1,
      (readiness_after lobby _ player r0 false h1).2 rfl, h1, h2⟩

/-- Witness of C19: players 1 and 2 hold slots 0 and 1 of the Sixes lobby; player 1 is
marked ready, or unready. -/
theorem ready_flag_effect_witness :
    twoSeatedDB.WF ∧
    twoSeatedDB.lobby_slots.filter
        (fun r => r.LobbyId == sixesLobby.ID && r.PlayerId == (playerN 1).ID) =
      [{ ID := 1, LobbyId := 1, PlayerId := 1, Slot := 0, Ready := false }] ∧
    IsPlayerReady sixesLobby (ReadyPlayer sixesLobby twoSeatedDB (playerN 1)).2.1 (playerN 1)
      = (true, none) ∧
    (ReadyPlayer sixesLobby twoSeatedDB (playerN 1)).2.1.lobby_slots.filter
        (fun r => !(r.LobbyId == sixesLobby.ID && r.PlayerId == (playerN 1).ID)) =
      twoSeatedDB.lobby_slots.filter
        (fun r => !(r.LobbyId == sixesLobby.ID && r.PlayerId == (playerN 1).ID)) ∧
    IsEveryoneReady sixesLobby (UnreadyPlayer sixesLobby twoSeatedDB (playerN 1)).2.1
      = false :=
  ⟨by decide, by decide,
    (ready_flag_effect sixesLobby twoSeatedDB (playerN 1)
      { ID := 1, LobbyId := 1, PlayerId := 1, Slot := 0, Ready := false }
      (by decide) (by decide)).1.2.1,
    (ready_flag_effect sixesLobby twoSeatedDB (playerN 1)
      { ID := 1, LobbyId := 1, PlayerId := 1, Slot := 0, Ready := false }
      (by decide) (by decide)).1.2.2.2,
    (ready_flag_effect sixesLobby twoSeatedDB (playerN 1)
      { ID := 1, LobbyId := 1, PlayerId := 1, Slot := 0, Ready := false }
      (by decide) (by decide)).2.2.2.1⟩

/-- C20. For every lobby, store and player, seated or not, `RemovePlayer` returns no error;
afterwards no slot row of the lobby references the player; the table is the old one
without the player's rows of this lobby, so every other row is unchanged, and the other
tables are unchanged; and a second `RemovePlayer` returns the lobby, the store and the
result of the first. -/
theorem removePlayer_effect (lobby : Lobby) (db : DB) (player : Player) :
    (RemovePlayer lobby db player).2.2 = none ∧
      (lobbyRows (RemovePlayer lobby db player).2.1 lobby.ID).filter
          (fun r => r.PlayerId == player.ID) = [] ∧
      (RemovePlayer lobby db player).2.1 =
        { db with lobby_slots := (db.lobby_slots.filter
            (fun r => !(r.PlayerId == player.ID && r.LobbyId == lobby.ID))) } ∧
      (lobbyRows (RemovePlayer lobby db player).2.1 lobby.ID).filter
          (fun r => !(r.PlayerId == player.ID)) =
        (lobbyRows db lobby.ID).filter (fun r => !(r.PlayerId == player.ID)) ∧
      RemovePlayer (RemovePlayer lobby db player).1 (RemovePlayer lobby db player).2.1 player =
        RemovePlayer lobby db player := by
  refine ⟨rfl, ?_, rfl, ?_, ?_⟩
  · rw [RemovePlayer_eq]
    unfold lobbyRows DB.Delete
    simp only [List.filter_filter]
    rw [List.filter_eq_nil_iff]
    intro r _
    simp only [Bool.and_eq_true, Bool.not_eq_true', Bool.and_eq_false_iff, not_and,
      beq_iff_eq, beq_eq_false_iff_ne, ne_eq]
    tauto
  · rw [RemovePlayer_eq]
    unfold lobbyRows DB.Delete
    simp only [List.filter_filter]
    apply List.filter_congr
    intro r _
    cases h1 : (r.PlayerId == player.ID) <;> simp
  · rw [RemovePlayer_eq, RemovePlayer_eq]
    simp only [updateServerAllowedPlayers_ID]
    have hd : ((db.Delete (fun r => r.PlayerId == player.ID && r.LobbyId == lobby.ID)).1.Delete
        (fun r => r.PlayerId == player.ID && r.LobbyId == lobby.ID)).1 =
        (db.Delete (fun r => r.PlayerId == player.ID && r.LobbyId == lobby.ID)).1 := by
      unfold DB.Delete
      simp [List.filter_filter]
    rw [hd, updateServerAllowedPlayers_idem]

/-- C21. For every state reached from a store that meets the schema constraints and holds
no slot row of the lobby, through any finite sequence of `AddPlayer`, `RemovePlayer`,
`AddSpectator`, `ReadyPlayer` and `UnreadyPlayer` calls (and `RemoveSpectator`,
`BanPlayer` calls as well), for a lobby of type Sixes, Highlander or any other: `IsFull`
returns true if and only if the number of occupied slots equals
`2 * TypePlayerCount[lobby.Type]`, where the number of occupied slots is
`GetPlayerNumber`, which is also the number of distinct slot indices held by the rows of
the lobby. -/
theorem isFull_iff_at_capacity (lobby : Lobby) (db : DB) (hwf : db.WF)
    (hnew : lobbyRows db lobby.ID = []) (cs : List Call) :
    (IsFull (runCalls (lobby, db) cs).1 (runCalls (lobby, db) cs).2 = true ↔
        GetPlayerNumber (runCalls (lobby, db) cs).1 (runCalls (lobby, db) cs).2 =
          2 * TypePlayerCount lobby.Type_) ∧
      GetPlayerNumber (runCalls (lobby, db) cs).1 (runCalls (lobby, db) cs).2 =
        ((((lobbyRows (runCalls (lobby, db) cs).2 lobby.ID).map
            (fun r => r.Slot)).dedup.length : Nat) : Int) := by
  obtain ⟨hid0, hty0, hinv0⟩ :=
    runCalls_inv cs (lobby, db) (SlotInv_of_new lobby.ID (capacity lobby) db hwf hnew)
  have hid : (runCalls (lobby, db) cs).1.ID = lobby.ID := hid0
  have hty : (runCalls (lobby, db) cs).1.Type_ = lobby.Type_ := hty0
  have hinv : SlotInv lobby.ID (capacity lobby) (runCalls (lobby, db) cs).2 := hinv0
  have hnn := TypePlayerCount_nonneg lobby.Type_
  have hle : ((lobbyRows (runCalls (lobby, db) cs).2 lobby.ID).length : Int) ≤
      2 * TypePlayerCount lobby.Type_ :=
    SlotInv_count_le hinv (by omega)
  have hnum : GetPlayerNumber (runCalls (lobby, db) cs).1 (runCalls (lobby, db) cs).2 =
      ((lobbyRows (runCalls (lobby, db) cs).2 lobby.ID).length : Int) := by
    rw [GetPlayerNumber_eq, hid]
  constructor
  · unfold IsFull
    rw [hnum, hty, decide_eq_true_iff]
    constructor
    · intro h; omega
    · intro h; omega
  · have hnd : ((lobbyRows (runCalls (lobby, db) cs).2 lobby.ID).map
        (fun r => r.Slot)).Nodup := hinv.2.2.1
    rw [hnum, List.Nodup.dedup hnd, List.length_map]

/-- Witness of C21: players 1..12 take slots 0..11 of a new Sixes lobby, and `IsFull` is
true. -/
theorem isFull_iff_at_capacity_witness :
    DB.empty.WF ∧ lobbyRows DB.empty sixesLobby.ID = [] ∧
    IsFull sixesLobby fullSixesDB = true ∧
    GetPlayerNumber sixesLobby fullSixesDB = 12 ∧
    (IsFull (runCalls (sixesLobby, DB.empty) fillSixesCalls).1
        (runCalls (sixesLobby, DB.empty) fillSixesCalls).2 = true ↔
      GetPlayerNumber (runCalls (sixesLobby, DB.empty) fillSixesCalls).1
          (runCalls (sixesLobby, DB.empty) fillSixesCalls).2 =
        2 * TypePlayerCount sixesLobby.Type_) :=
  ⟨by decide, rfl, by decide, by decide,
    (isFull_iff_at_capacity sixesLobby DB.empty (by decide) rfl fillSixesCalls).1⟩

/-- C22. `AddPlayer` is atomic on failure: for every lobby, store, player and slot index,
if `AddPlayer` returns an error then the store (slot table, spectator set, ban table and
the rest) and the lobby are exactly what they were before the call, and the error is one
of: player not in the database, banned, invalid slot, slot filled. -/
theorem addPlayer_atomic_on_failure (lobby : Lobby) (db : DB) (player : Player) (slot : Int)
    (herr : (AddPlayer lobby db player slot).2.2 ≠ none) :
    (AddPlayer lobby db player slot).2.1 = db ∧
      (AddPlayer lobby db player slot).2.1.lobby_slots = db.lobby_slots ∧
      (AddPlayer lobby db player slot).2.1.spectators_players_lobbies =
        db.spectators_players_lobbies ∧
      (AddPlayer lobby db player slot).2.1.banned_players_lobbies =
        db.banned_players_lobbies ∧
      (AddPlayer lobby db player slot).1 = lobby ∧
      ((AddPlayer lobby db player slot).2.2 =
          some (NewTPError "Player not in the database" (-1)) ∨
        (AddPlayer lobby db player slot).2.2 =
          some (NewTPError "The player has been banned from this lobby." 4) ∨
        (AddPlayer lobby db player slot).2.2 =
          some (NewTPError "This slot does not exist." 3) ∨
        (AddPlayer lobby db player slot).2.2 =
          some (NewTPError "This slot has been filled." 2)) := by
  rw [AddPlayer_eq] at herr ⊢
  split_ifs at herr ⊢
  · exact ⟨rfl, rfl, rfl, rfl, rfl, Or.inl rfl⟩
  · exact ⟨rfl, rfl, rfl, rfl, rfl, Or.inr (Or.inl rfl)⟩
  · exact ⟨rfl, rfl, rfl, rfl, rfl, Or.inr (Or.inr (Or.inl rfl))⟩
  · exact ⟨rfl, rfl, rfl, rfl, rfl, Or.inr (Or.inr (Or.inr rfl))⟩
  · exact absurd rfl herr

/-- Witness of C22: player 3 asks for slot 0 of the Sixes lobby, which player 1 holds,
while player 3 is a spectator; the call fails and player 3 is still a spectator. -/
theorem addPlayer_atomic_on_failure_witness :
    (AddPlayer sixesLobby (AddSpectator sixesLobby twoSeatedDB (playerN 3)).2.1
        (playerN 3) 0).2.2 ≠ none ∧
    (sixesLobby.ID, (playerN 3).ID) ∈
      (AddSpectator sixesLobby twoSeatedDB (playerN 3)).2.1.spectators_players_lobbies ∧
    (AddPlayer sixesLobby (AddSpectator sixesLobby twoSeatedDB (playerN 3)).2.1
        (playerN 3) 0).2.1 = (AddSpectator sixesLobby twoSeatedDB (playerN 3)).2.1 :=
  ⟨by decide, by decide,
    (addPlayer_atomic_on_failure sixesLobby
      (AddSpectator sixesLobby twoSeatedDB (playerN 3)).2.1 (playerN 3) 0 (by decide)).1⟩

/-- C23. Permission table semantics, for the table reached from the initial empty table by
any finite sequence `cs` of `Allow`, `Disallow`, `Inherit` and `Reset` calls (the package
variable is changed by nothing else), and every role `r`, `o` and action `a`.
(1) `Can(r, a)`, as method and as function, is true exactly when the most recent of
`Allow(a)`, `Disallow(a)` or an `Inherit` that copied an entry for `a`, applied to `r`
since the last `Reset`, wrote true (`lastWritten`); if no call is `r.Allow(a)` or an
`Inherit` into `r`, `Can(r, a)` is false.
(2) After `r.Allow(a)` `Can(r, a)` is true, after `r.Disallow(a)` it is false, and neither
changes `Can` for another pair of role and action.
(3) After `r.Inherit(o)`, `Can(r, a1)` equals `Can(o, a1)` for every action `a1` that `o`
has an entry for; the entries of `r` for the other actions, all entries of `o` and all
entries of every other role are unchanged. -/
theorem permission_table_semantics (cs : List PermCall) (r o : AuthRole) (a : AuthAction) :
    (AuthRole.Can r a (runPermCalls cs) = true ↔ lastWritten cs.reverse r a = some true) ∧
    Can r a (runPermCalls cs) = AuthRole.Can r a (runPermCalls cs) ∧
    ((∀ c ∈ cs, c ≠ PermCall.Allow r a ∧ ∀ o1, c ≠ PermCall.Inherit r o1) →
      AuthRole.Can r a (runPermCalls cs) = false) ∧
    AuthRole.Can r a (AuthRole.Allow r a (runPermCalls cs)).2 = true ∧
    AuthRole.Can r a (AuthRole.Disallow r a (runPermCalls cs)).2 = false ∧
    (∀ r1 a1, ¬ (r1 = r ∧ a1 = a) →
      AuthRole.Can r1 a1 (AuthRole.Allow r a (runPermCalls cs)).2 =
          AuthRole.Can r1 a1 (runPermCalls cs) ∧
        AuthRole.Can r1 a1 (AuthRole.Disallow r a (runPermCalls cs)).2 =
          AuthRole.Can r1 a1 (runPermCalls cs)) ∧
    (∀ a1, permEntry (runPermCalls cs) o a1 ≠ none →
      AuthRole.Can r a1 (AuthRole.Inherit r o (runPermCalls cs)).2 =
          AuthRole.Can o a1 (runPermCalls cs) ∧
        AuthRole.Can r a1 (AuthRole.Inherit r o (runPermCalls cs)).2 =
          AuthRole.Can o a1 (AuthRole.Inherit r o (runPermCalls cs)).2) ∧
    (∀ a1, permEntry (runPermCalls cs) o a1 = none →
      permEntry (AuthRole.Inherit r o (runPermCalls cs)).2 r a1 =
        permEntry (runPermCalls cs) r a1) ∧
    (∀ a1, permEntry (AuthRole.Inherit r o (runPermCalls cs)).2 o a1 =
      permEntry (runPermCalls cs) o a1) ∧
    (∀ r1 a1, r1 ≠ r →
      permEntry (AuthRole.Inherit r o (runPermCalls cs)).2 r1 a1 =
        permEntry (runPermCalls cs) r1 a1) := by
  have hwf := runPermCalls_WF cs
  have hlast : ∀ r1 a1, permEntry (runPermCalls cs) r1 a1 = lastWritten cs.reverse r1 a1 := by
    intro r1 a1
    rw [runPermCalls_eq_foldr]
    exact (permEntry_history cs.reverse).2 r1 a1
  have hsame : ∀ a1, permEntry (AuthRole.Inherit r o (runPermCalls cs)).2 o a1 =
      permEntry (runPermCalls cs) o a1 := by
    intro a1
    rw [permEntry_Inherit r o _ hwf]
    by_cases h : o = r
    · subst h
      simp only [if_true]
      cases permEntry (runPermCalls cs) o a1 <;> rfl
    · rw [if_neg h]
  have hcopy : ∀ a1, permEntry (runPermCalls cs) o a1 ≠ none →
      permEntry (AuthRole.Inherit r o (runPermCalls cs)).2 r a1 =
        permEntry (runPermCalls cs) o a1 := by
    intro a1 h1
    rw [permEntry_Inherit r o _ hwf, if_pos rfl]
    cases hp : permEntry (runPermCalls cs) o a1 with
    | none => exact absurd hp h1
    | some v => rfl
  refine ⟨?_, rfl, ?_, ?_, ?_, ?_, ?_, ?_, hsame, ?_⟩
  · rw [Can_eq_true_iff, hlast]
  · intro hno
    rw [Bool.eq_false_iff]
    intro hcan
    rw [Can_eq_true_iff, hlast] at hcan
    exact lastWritten_of_not_mentioned cs.reverse r a
      (fun c hc => hno c (List.mem_reverse.mp hc)) hcan
  · rw [Can_eq_true_iff, permEntry_Allow, if_pos ⟨rfl, rfl⟩]
  · rw [Bool.eq_false_iff]
    intro hcan
    rw [Can_eq_true_iff, permEntry_Disallow, if_pos ⟨rfl, rfl⟩] at hcan
    simp at hcan
  · intro r1 a1 hne
    constructor
    · apply Can_congr
      rw [permEntry_Allow, if_neg hne]
    · apply Can_congr
      rw [permEntry_Disallow, if_neg hne]
  · intro a1 h1
    constructor
    · apply Can_congr
      exact hcopy a1 h1
    · apply Can_congr
      rw [hcopy a1 h1, hsame]
  · intro a1 h1
    rw [permEntry_Inherit r o _ hwf, if_pos rfl, h1]
  · intro r1 a1 hne
    rw [permEntry_Inherit r o _ hwf, if_neg hne]

end Helen
